import Mathlib

/-!
# Notification schema migration and its validation script

A shallow embedding of `server/migrations/fix-notifications-schema.js`
(`fixNotificationsSchema`) and `server/test-notifications.js`
(`testNotifications`).

The two scripts talk to a SQLite file through `runQuery`, `getAll` and `get`.
The datastore is modelled as explicit state (`Db`); every statement of the
scripts is a function on that state which either yields a result and a new
state or is rejected and leaves the state as it was.  SQL `NULL` is `none`.
Stored integers are mathematical integers (SQLite keeps 64-bit ones); text is
handed through unchanged.  An integer that a script reads from a result row
and uses again reaches it as a JavaScript number, a double: `jsNumber` is that
conversion, exact up to magnitude 2^53 and rounding to 53 significant bits
beyond.  A JavaScript number bound to a statement is stored as the same
number; bound to the primary key it must convert back to a 64-bit integer.
Results that a script only prints are kept as the query yields them.  Foreign
keys are not enforced (the scripts never switch enforcement on).  Besides the rejections that follow from the table
shapes, any statement may be rejected by the environment (`Env.fault`), which
stands for every failure the table model does not describe.

A process run is a value of `Run`: the final datastore, the exit status and
the log of datastore calls with their outcomes.
-/

namespace Notifications

/-! ## Data model -/

/-- One row of a notifications table, with the eleven columns the scripts name. -/
structure NotificationRow where
  id : Int
  user_id : Option Int
  user_type : Option String
  restaurant_id : Option Int
  booking_id : Option Int
  order_id : Option Int
  title : Option String
  message : Option String
  type : Option String
  is_read : Option Int
  created_at : Option String
deriving DecidableEq, Repr

/-- A notifications table: whether it has the `user_type` column (the shape the
migration creates) or not (the older shape), its rows in storage order, and the
AUTOINCREMENT high-water mark kept for the table. -/
structure NotifTable where
  hasUserType : Bool
  rows : List NotificationRow
  seq : Int
deriving DecidableEq, Repr

/-- A row of `login_users`, with the columns `testNotifications` writes. -/
structure LoginUser where
  id : Int
  name : Option String
  email : Option String
  phone : Option String
  password_hash : Option String
  role : Option String
  is_active : Option Int
deriving DecidableEq, Repr

/-- A row of `users`, with the columns `testNotifications` reads. -/
structure User where
  id : Int
  email : Option String
  restaurant_id : Option Int
  role : Option String
deriving DecidableEq, Repr

/-- The datastore: each table is present (`some`) or absent (`none`); an index is
recorded as its name and the name of the table it belongs to. -/
structure Db where
  notifications : Option NotifTable
  notifications_new : Option NotifTable
  login_users : Option (List LoginUser)
  users : Option (List User)
  indexes : List (String × String)
deriving DecidableEq, Repr

/-- What the environment decides: whether opening and closing the file fail,
which statements (numbered in issue order from 0) it rejects, and the value of
`CURRENT_TIMESTAMP`. -/
structure Env where
  openFails : Bool
  closeFails : Bool
  fault : Nat → Bool
  now : String

/-- A datastore call or a fatal check, with its outcome. -/
inductive Event where
  | opened (ok : Bool)
  | statement (ok : Bool)
  | fixtureMissing
  | closed (ok : Bool)
deriving DecidableEq, Repr

/-- Script state: the datastore, the number of statements issued, the log. -/
structure St where
  db : Db
  issued : Nat
  log : List Event
deriving DecidableEq, Repr

/-- How the body of a script stops early: a rejected promise (caught by the
`catch` block) or a direct `process.exit(code)`. -/
inductive Stop where
  | rejected
  | exit (code : Nat)
deriving DecidableEq, Repr

/-- Result of a finished process. -/
structure Run where
  db : Db
  status : Nat
  log : List Event
deriving DecidableEq, Repr

/-! ## Statement executor -/

/-- Common part of `runQuery`, `getAll` and `get`: the statement is issued, the
promise rejects when the driver reports an error and resolves otherwise. -/
def issue {α : Type} (env : Env) (sem : Db → Option (α × Db)) (s : St) :
    Except (Stop × St) (α × St) :=
  if env.fault s.issued then
    .error (.rejected, { s with issued := s.issued + 1, log := s.log ++ [.statement false] })
  else
    match sem s.db with
    | none =>
      .error (.rejected, { s with issued := s.issued + 1, log := s.log ++ [.statement false] })
    | some (a, db') =>
      .ok (a, { db := db', issued := s.issued + 1, log := s.log ++ [.statement true] })

/-- The helper `runQuery`: resolves with the statement context (its `lastID`). -/
def runQuery (env : Env) (sem : Db → Option (Int × Db)) (s : St) :
    Except (Stop × St) (Int × St) :=
  issue env sem s

/-- The helper `getAll`: resolves with the result rows. -/
def getAll {β : Type} (env : Env) (sem : Db → Option (List β)) (s : St) :
    Except (Stop × St) (List β × St) :=
  issue env (fun db => (sem db).map (fun rows => (rows, db))) s

/-- The helper `get`: resolves with the first result row, if any. -/
def get {β : Type} (env : Env) (sem : Db → Option (Option β)) (s : St) :
    Except (Stop × St) (Option β × St) :=
  issue env (fun db => (sem db).map (fun row => (row, db))) s

/-! ## Table operations -/

/-- Largest id among the rows, 0 when there is none above it. -/
def maxId : List NotificationRow → Int
  | [] => 0
  | r :: rs => max r.id (maxId rs)

/-- The id AUTOINCREMENT assigns to a row inserted without one. -/
def NotifTable.nextId (t : NotifTable) : Int :=
  max t.seq (maxId t.rows) + 1

/-- The VALUES of an INSERT into the shape created by the migration, after the
defaults of omitted columns are filled in; `id = none` asks for an assigned id. -/
structure Values where
  id : Option Int
  user_id : Option Int
  user_type : Option String
  restaurant_id : Option Int
  booking_id : Option Int
  order_id : Option Int
  title : Option String
  message : Option String
  type : Option String
  is_read : Option Int
  created_at : Option String
deriving DecidableEq, Repr

/-- The stored row for given values and id. -/
def Values.row (v : Values) (id : Int) : NotificationRow :=
  { id := id, user_id := v.user_id, user_type := v.user_type,
    restaurant_id := v.restaurant_id, booking_id := v.booking_id, order_id := v.order_id,
    title := v.title, message := v.message, type := v.type, is_read := v.is_read,
    created_at := v.created_at }

/-- The column constraints of the CREATE TABLE statement: `user_id`, `user_type`,
`title` and `message` are NOT NULL.  There is no other check on a column. -/
def Values.notNullOk (v : Values) : Bool :=
  v.user_id.isSome && v.user_type.isSome && v.title.isSome && v.message.isSome

/-- INSERT into a table naming the column `user_type`: rejected when the table
lacks that column, when a NOT NULL column is NULL, or when the given id is
already a primary key of the table.  Returns the id of the new row. -/
def NotifTable.insert (t : NotifTable) (v : Values) : Option (Int × NotifTable) :=
  if t.hasUserType && v.notNullOk then
    match v.id with
    | none =>
      let id := t.nextId
      some (id, { t with rows := t.rows ++ [v.row id], seq := id })
    | some id =>
      if id ∈ t.rows.map (·.id) then none
      else some (id, { t with rows := t.rows ++ [v.row id], seq := max t.seq id })
  else none

/-! ## Numbers as the scripts hold them -/

/-- Number of low bits a natural number has beyond 53 significant bits
(for numbers below 2^117, which covers every 64-bit integer). -/
def excessBits : Nat → Nat → Nat
  | 0, _ => 0
  | fuel + 1, m => if m < 2 ^ 53 then 0 else excessBits fuel (m / 2) + 1

/-- A natural number rounded to 53 significant bits, ties to the even
neighbour: the value of the double nearest to it. -/
def roundNat (m : Nat) : Nat :=
  let e := excessBits 64 m
  let q := m / 2 ^ e
  let r := m % 2 ^ e
  if 2 ^ e < 2 * r ∨ (2 * r = 2 ^ e ∧ q % 2 = 1) then (q + 1) * 2 ^ e else q * 2 ^ e

/-- The JavaScript number that the driver hands to the script for a stored
64-bit integer. -/
def jsNumber (n : Int) : Int :=
  if n < 0 then -((roundNat n.natAbs : Nat) : Int) else ((roundNat n.natAbs : Nat) : Int)

/-- A row of a notifications table as `db.all` hands it to the script: every
integer column is a JavaScript number, text is unchanged. -/
def jsRow (r : NotificationRow) : NotificationRow :=
  { r with
    id := jsNumber r.id, user_id := r.user_id.map jsNumber,
    restaurant_id := r.restaurant_id.map jsNumber, booking_id := r.booking_id.map jsNumber,
    order_id := r.order_id.map jsNumber, is_read := r.is_read.map jsNumber }

/-- Whether a JavaScript number bound to an INTEGER PRIMARY KEY is accepted: it
must convert to a 64-bit integer, which SQLite does for whole numbers strictly
between -2^63 and 2^63; otherwise the statement fails with a datatype mismatch. -/
def rowidBindable (id : Int) : Bool :=
  decide (-(2 : Int) ^ 63 < id) && decide (id < (2 : Int) ^ 63)

/-- An integer that a JavaScript number holds exactly because its magnitude is
at most 2^53. -/
def jsSafe (x : Int) : Bool :=
  decide (x.natAbs ≤ 2 ^ 53)

/-- A row all of whose integer columns are at most 2^53 in magnitude. -/
def NotificationRow.jsSafe (r : NotificationRow) : Bool :=
  Notifications.jsSafe r.id && r.user_id.all Notifications.jsSafe &&
    r.restaurant_id.all Notifications.jsSafe && r.booking_id.all Notifications.jsSafe &&
    r.order_id.all Notifications.jsSafe && r.is_read.all Notifications.jsSafe

/-! ## The migration script -/

/-- Statement `CREATE TABLE IF NOT EXISTS notifications_new (...)`. -/
def createNotificationsNew (db : Db) : Option (Int × Db) :=
  match db.notifications_new with
  | some _ => some (0, db)
  | none => some (0, { db with notifications_new := some { hasUserType := true, rows := [], seq := 0 } })

/-- Statement `SELECT * FROM notifications`, as `getAll` resolves it: the rows
of the table, their integers read as JavaScript numbers. -/
def selectAllNotifications (db : Db) : Option (List NotificationRow) :=
  db.notifications.map (fun t => t.rows.map jsRow)

/-- The bound parameters of the copying INSERT for one row `notif` of
`existingNotifications` (a row as the script holds it, its integers being
JavaScript numbers): every column but `user_type` is taken from the row,
`user_type` is the literal customer. -/
def copyValues (notif : NotificationRow) : Values :=
  { id := some notif.id, user_id := notif.user_id, user_type := some "customer",
    restaurant_id := notif.restaurant_id, booking_id := notif.booking_id,
    order_id := notif.order_id, title := notif.title, message := notif.message,
    type := notif.type, is_read := notif.is_read, created_at := notif.created_at }

/-- Statement `INSERT INTO notifications_new (id, user_id, user_type, ...)` with
the parameters bound from `notif`; the number bound to `id` has to be
acceptable as a primary key. -/
def insertIntoNotificationsNew (notif : NotificationRow) (db : Db) : Option (Int × Db) :=
  match db.notifications_new with
  | none => none
  | some t =>
    if rowidBindable notif.id then
      match t.insert (copyValues notif) with
      | none => none
      | some (id, t') => some (id, { db with notifications_new := some t' })
    else none

/-- Statement `DROP TABLE notifications`: the table goes, and its indexes with it. -/
def dropNotifications (db : Db) : Option (Int × Db) :=
  match db.notifications with
  | none => none
  | some _ =>
    some (0, { db with notifications := none,
                       indexes := db.indexes.filter (fun ix => ix.2 ≠ "notifications") })

/-- Statement `ALTER TABLE notifications_new RENAME TO notifications`. -/
def renameNotificationsNew (db : Db) : Option (Int × Db) :=
  match db.notifications_new, db.notifications with
  | some t, none =>
    some (0, { db with notifications := some t, notifications_new := none,
                       indexes := db.indexes.map (fun ix =>
                         if ix.2 = "notifications_new" then (ix.1, "notifications") else ix) })
  | _, _ => none

/-- Statement `CREATE INDEX IF NOT EXISTS name ON notifications(...)`; the flag
says whether the indexed columns include `user_type`. -/
def createIndex (name : String) (needsUserType : Bool) (db : Db) : Option (Int × Db) :=
  match db.notifications with
  | none => none
  | some t =>
    if name ∈ db.indexes.map (·.1) then some (0, db)
    else if needsUserType && !t.hasUserType then none
    else some (0, { db with indexes := db.indexes ++ [(name, "notifications")] })

/-- The loop `for (const notif of existingNotifications) await runQuery(INSERT ...)`. -/
def copyLoop (env : Env) : List NotificationRow → St → Except (Stop × St) St
  | [], s => .ok s
  | notif :: rest, s =>
    match runQuery env (insertIntoNotificationsNew notif) s with
    | .error e => .error e
    | .ok (_, s') => copyLoop env rest s'

/-- The `try` block of `fixNotificationsSchema`. -/
def migrationBody (env : Env) (s0 : St) : Except (Stop × St) St := do
  let (_, s1) ← runQuery env createNotificationsNew s0
  let (existingNotifications, s2) ← getAll env selectAllNotifications s1
  let s3 ← copyLoop env existingNotifications s2
  let (_, s4) ← runQuery env dropNotifications s3
  let (_, s5) ← runQuery env renameNotificationsNew s4
  let (_, s6) ← runQuery env (createIndex "idx_notifications_user" true) s5
  let (_, s7) ← runQuery env (createIndex "idx_notifications_read" false) s6
  let (_, s8) ← runQuery env (createIndex "idx_notifications_created" false) s7
  pure s8

/-- The state in which a script body starts once the file is open. -/
def start (db : Db) : St :=
  { db := db, issued := 0, log := [.opened true] }

/-- What surrounds the `try` block in both scripts.  When the file cannot be
opened the open callback exits with 1.  A rejected statement reaches `catch`,
which calls `process.exit(1)`; that call does not return, so `finally` is not
run.  A direct `process.exit(code)` in the body ends the process the same way.
When the body runs to its end, `finally` closes the connection and the close
callback exits with 0 whether or not closing failed. -/
def runScript (env : Env) (body : St → Except (Stop × St) St) (db : Db) : Run :=
  if env.openFails then
    { db := db, status := 1, log := [.opened false] }
  else
    match body (start db) with
    | .error (.rejected, s) => { db := s.db, status := 1, log := s.log }
    | .error (.exit code, s) => { db := s.db, status := code, log := s.log }
    | .ok s => { db := s.db, status := 0, log := s.log ++ [.closed (!env.closeFails)] }

/-- The script `fix-notifications-schema.js`, run as a process. -/
def fixNotificationsSchema (env : Env) (db : Db) : Run :=
  runScript env (migrationBody env) db

/-! ## The validation script -/

/-- What the script keeps of the customer row: `id` (a JavaScript number) and `email`. -/
structure Customer where
  id : Int
  email : Option String
deriving DecidableEq, Repr

/-- What the script keeps of the admin row: `id`, `email`, `restaurant_id`, the
integers as JavaScript numbers. -/
structure Admin where
  id : Int
  email : Option String
  restaurant_id : Option Int
deriving DecidableEq, Repr

/-- A result row of the two listing queries: `id, title, message, user_type, is_read`. -/
structure Listed where
  id : Int
  title : Option String
  message : Option String
  user_type : Option String
  is_read : Option Int
deriving DecidableEq, Repr

/-- The selected columns of a row. -/
def NotificationRow.listed (r : NotificationRow) : Listed :=
  { id := r.id, title := r.title, message := r.message, user_type := r.user_type,
    is_read := r.is_read }

/-- Statement `SELECT id, email FROM login_users WHERE role = "customer" LIMIT 1`. -/
def selectCustomer (db : Db) : Option (Option Customer) :=
  db.login_users.map (fun us =>
    (us.find? (fun u => decide (u.role = some "customer"))).map
      (fun u => { id := jsNumber u.id, email := u.email }))

/-- Largest id among the login users, 0 when there is none above it. -/
def maxLoginId : List LoginUser → Int
  | [] => 0
  | u :: us => max u.id (maxLoginId us)

/-- The row written by the INSERT that creates the test customer. -/
def testCustomer (id : Int) : LoginUser :=
  { id := id, name := some "Test Customer", email := some "customer@test.com",
    phone := some "1234567890", password_hash := some "hashed", role := some "customer",
    is_active := some 1 }

/-- Statement `INSERT INTO login_users (name, email, phone, password_hash, role,
is_active) VALUES (...)` with the test customer; the new row gets the next id. -/
def insertTestCustomer (db : Db) : Option (Int × Db) :=
  match db.login_users with
  | none => none
  | some us =>
    let id := maxLoginId us + 1
    some (id, { db with login_users := some (us ++ [testCustomer id]) })

/-- Statement `SELECT id, email, restaurant_id FROM users WHERE role = "admin" LIMIT 1`. -/
def selectAdmin (db : Db) : Option (Option Admin) :=
  db.users.map (fun us =>
    (us.find? (fun u => decide (u.role = some "admin"))).map
      (fun u => { id := jsNumber u.id, email := u.email,
                  restaurant_id := u.restaurant_id.map jsNumber }))

/-- The values of the two creating INSERTs: `user_id`, `restaurant_id`, `title`
and `message` are bound, `user_type` and `type` are literals of the statement,
`is_read` is 0, and the omitted `created_at` takes its default, the current time. -/
def createValues (env : Env) (user_id : Int) (user_type : String) (restaurant_id : Option Int)
    (title message type : String) : Values :=
  { id := none, user_id := some user_id, user_type := some user_type,
    restaurant_id := restaurant_id, booking_id := none, order_id := none,
    title := some title, message := some message, type := some type, is_read := some 0,
    created_at := some env.now }

/-- An INSERT into `notifications` naming the column `user_type`. -/
def insertNotification (v : Values) (db : Db) : Option (Int × Db) :=
  match db.notifications with
  | none => none
  | some t =>
    match t.insert v with
    | none => none
    | some (id, t') => some (id, { db with notifications := some t' })

/-- Statement `INSERT INTO notifications (...) VALUES (?, 'customer', ?, ?, ?, 'info', 0)`. -/
def createCustomerNotification (env : Env) (customer : Customer) (admin : Admin) (db : Db) :
    Option (Int × Db) :=
  insertNotification (createValues env customer.id "customer" admin.restaurant_id
    "Test Notification" "This is a test notification for a customer" "info") db

/-- Statement `INSERT INTO notifications (...) VALUES (?, 'admin', ?, ?, ?, 'success', 0)`. -/
def createAdminNotification (env : Env) (admin : Admin) (db : Db) : Option (Int × Db) :=
  insertNotification (createValues env admin.id "admin" admin.restaurant_id
    "Admin Alert" "This is a test notification for an admin" "success") db

/-- The listing query `SELECT id, title, message, user_type, is_read FROM
notifications WHERE user_id = ? AND user_type = literal` on a table; it is
rejected when the table has no `user_type` column. -/
def listByRecipient (t : NotifTable) (user_id : Int) (user_type : String) :
    Option (List Listed) :=
  if t.hasUserType then
    some ((t.rows.filter (fun r =>
      decide (r.user_id = some user_id) && decide (r.user_type = some user_type))).map
        NotificationRow.listed)
  else none

/-- The counting query `SELECT COUNT(*) as count FROM notifications WHERE
user_id = ? AND user_type = literal AND is_read = 0` on a table. -/
def countUnread (t : NotifTable) (user_id : Int) (user_type : String) : Option Nat :=
  if t.hasUserType then
    some (t.rows.filter (fun r =>
      decide (r.user_id = some user_id) && decide (r.user_type = some user_type) &&
        decide (r.is_read = some 0))).length
  else none

/-- The listing query as a statement on the datastore. -/
def selectNotifications (user_id : Int) (user_type : String) (db : Db) :
    Option (List Listed) :=
  db.notifications.bind (fun t => listByRecipient t user_id user_type)

/-- The counting query as a statement on the datastore; it yields one row. -/
def selectUnread (user_id : Int) (user_type : String) (db : Db) : Option (Option Nat) :=
  (db.notifications.bind (fun t => countUnread t user_id user_type)).map some

/-- The block `if (!customer) { ... }`: when the query found no customer, the
test customer is inserted and `customer` becomes its `lastID` and email. -/
def ensureCustomer (env : Env) (found : Option Customer) (s1 : St) :
    Except (Stop × St) (Customer × St) :=
  match found with
  | some c => .ok (c, s1)
  | none =>
    match runQuery env insertTestCustomer s1 with
    | .error e => .error e
    | .ok (lastID, s) => .ok ({ id := jsNumber lastID, email := some "customer@test.com" }, s)

/-- The `try` block of `testNotifications`. -/
def testBody (env : Env) (s0 : St) : Except (Stop × St) St := do
  let (found, s1) ← get env selectCustomer s0
  let (customer, s2) ← ensureCustomer env found s1
  let (adminRow, s3) ← get env selectAdmin s2
  match adminRow with
  | none => throw (.exit 1, { s3 with log := s3.log ++ [.fixtureMissing] })
  | some admin =>
    let (_, s4) ← runQuery env (createCustomerNotification env customer admin) s3
    let (_, s5) ← runQuery env (createAdminNotification env admin) s4
    let (_, s6) ← getAll env (selectNotifications customer.id "customer") s5
    let (_, s7) ← getAll env (selectNotifications admin.id "admin") s6
    let (_, s8) ← get env (selectUnread customer.id "customer") s7
    let (_, s9) ← get env (selectUnread admin.id "admin") s8
    pure s9

/-- The script `test-notifications.js`, run as a process. -/
def testNotifications (env : Env) (db : Db) : Run :=
  runScript env (testBody env) db

/-! ## Reading a log -/

/-- A failed call or a missing fixture: the events that concern the exit status
as the specification words it (open, each statement, close, required fixture). -/
def Event.failure : Event → Bool
  | .opened ok => !ok
  | .statement ok => !ok
  | .fixtureMissing => true
  | .closed ok => !ok

/-- The same, leaving the outcome of closing aside. -/
def Event.fatal : Event → Bool
  | .opened ok => !ok
  | .statement ok => !ok
  | .fixtureMissing => true
  | .closed _ => false

/-- Whether the event is a call to `db.close`. -/
def Event.isClose : Event → Bool
  | .closed _ => true
  | _ => false

/-- Number of times the connection was closed during a run. -/
def Run.closes (r : Run) : Nat :=
  r.log.countP Event.isClose

/-- The row the copying INSERT stores for a row of the old table. -/
def relabel (r : NotificationRow) : NotificationRow :=
  { r with user_type := some "customer" }

/-! ## Sample data -/

/-- An environment in which no call fails. -/
def calmEnv : Env :=
  { openFails := false, closeFails := false, fault := fun _ => false, now := "T1" }

/-- The scenario row: id 1, user 7, restaurant 3. -/
def welcomeRow : NotificationRow :=
  { id := 1, user_id := some 7, user_type := none, restaurant_id := some 3,
    booking_id := none, order_id := none, title := some "Welcome", message := some "Hi",
    type := some "info", is_read := some 0, created_at := some "T0" }

/-- A datastore holding only an old-shape notifications table with the given rows. -/
def legacyDb (rows : List NotificationRow) : Db :=
  { notifications := some { hasUserType := false, rows := rows, seq := 0 },
    notifications_new := none, login_users := none, users := none, indexes := [] }

/-- A row with id 2 left in `notifications_new` by some earlier activity. -/
def strayRow : NotificationRow :=
  { id := 2, user_id := some 9, user_type := some "admin", restaurant_id := none,
    booking_id := none, order_id := none, title := some "Old", message := some "Left over",
    type := some "info", is_read := some 1, created_at := some "T9" }

/-- The scenario row with the id 2^53 + 1, which no JavaScript number holds. -/
def bigRow : NotificationRow :=
  { welcomeRow with id := 9007199254740993 }

/-- A table in the new shape whose two rows have the ids 2^53 and 2^53 + 1. -/
def twinTable : NotifTable :=
  { hasUserType := true, seq := 9007199254740993,
    rows := [{ relabel welcomeRow with id := 9007199254740992 }, relabel bigRow] }

/-- A migrated datastore holding `twinTable`. -/
def twinDb : Db :=
  { notifications := some twinTable, notifications_new := none, login_users := some [],
    users := some [], indexes := [] }

/-- The scenario datastore, with a `notifications_new` table that already holds a row. -/
def staleShadowDb : Db :=
  { legacyDb [welcomeRow] with
    notifications_new := some { hasUserType := true, rows := [strayRow], seq := 2 } }

/-- An environment in which only closing the connection fails. -/
def closeFailEnv : Env :=
  { calmEnv with closeFails := true }

/-- The environment `env` with the outcome of closing the connection set to
fail (`true`) or succeed (`false`), everything else as it was. -/
def withClose (env : Env) (fails : Bool) : Env :=
  { env with closeFails := fails }

/-- An environment in which the file cannot be opened. -/
def openFailEnv : Env :=
  { calmEnv with openFails := true }

/-- A datastore file with no table at all. -/
def noTablesDb : Db :=
  { notifications := none, notifications_new := none, login_users := none, users := none,
    indexes := [] }

/-- A migrated datastore whose `users` table has no admin. -/
def noAdminDb : Db :=
  { notifications := some { hasUserType := true, rows := [], seq := 0 },
    notifications_new := none, login_users := some [],
    users := some [{ id := 4, email := some "w@x", restaurant_id := some 3, role := some "waiter" }],
    indexes := [] }

/-- The content the migration must carry over from a row `r` to a row `r'`:
every column of `r` but `user_type`, which becomes customer. -/
def Carried (r r' : NotificationRow) : Prop :=
  r'.id = r.id ∧ r'.user_id = r.user_id ∧ r'.restaurant_id = r.restaurant_id ∧
    r'.booking_id = r.booking_id ∧ r'.order_id = r.order_id ∧ r'.title = r.title ∧
    r'.message = r.message ∧ r'.type = r.type ∧ r'.is_read = r.is_read ∧
    r'.created_at = r.created_at ∧ r'.user_type = some "customer"

/-- A notifications table that satisfies the constraints of the shape the
migration creates: it has the `user_type` column, `id` is a key, and `user_id`,
`user_type`, `title` and `message` are not NULL. -/
def InTargetShape (t : NotifTable) : Prop :=
  t.hasUserType = true ∧ (t.rows.map (·.id)).Nodup ∧
    ∀ r ∈ t.rows, r.user_id.isSome = true ∧ r.user_type.isSome = true ∧
      r.title.isSome = true ∧ r.message.isSome = true

instance (t : NotifTable) : Decidable (InTargetShape t) := by
  unfold InTargetShape
  infer_instance

/-- A table in the new shape holding one customer and one admin notification. -/
def mixedTable : NotifTable :=
  { hasUserType := true, rows := [relabel welcomeRow, strayRow], seq := 2 }

/-- A migrated datastore holding `mixedTable`. -/
def mixedDb : Db :=
  { notifications := some mixedTable, notifications_new := none, login_users := some [],
    users := some [], indexes := [] }

/-- The rows of `login_users`, none when the table is absent. -/
def loginRows (db : Db) : List LoginUser :=
  db.login_users.getD []

/-- Whether `login_users` holds the customer fixture the script creates: a row
with role customer and the email of the test customer. -/
def hasCustomerFixture (db : Db) : Bool :=
  (loginRows db).any (fun u =>
    decide (u.role = some "customer") && decide (u.email = some "customer@test.com"))

/-- Number of `login_users` rows with the email of the test customer. -/
def fixtureEmails (db : Db) : Nat :=
  (loginRows db).countP (fun u => decide (u.email = some "customer@test.com"))

/-- How `login_users` can differ after a run from the table `db0` had: not at
all, or by the test customer appended to a table that had no customer. -/
def LoginOutcome (db0 db' : Db) : Prop :=
  db'.login_users = db0.login_users ∨
    ∃ us id, db0.login_users = some us ∧ (∀ u ∈ us, u.role ≠ some "customer") ∧
      db'.login_users = some (us ++ [testCustomer id])

/-- A datastore that already holds the customer fixture, an admin and the new table. -/
def fixtureDb : Db :=
  { notifications := some { hasUserType := true, rows := [], seq := 0 },
    notifications_new := none, login_users := some [testCustomer 1],
    users := some [{ id := 5, email := some "a@x", restaurant_id := some 3, role := some "admin" }],
    indexes := [] }

/-- A datastore after migration with one admin (id 5) and no login user. -/
def freshDb : Db :=
  { notifications := some { hasUserType := true, rows := [], seq := 0 },
    notifications_new := none, login_users := some [],
    users := some [{ id := 5, email := some "a@x", restaurant_id := some 3, role := some "admin" }],
    indexes := [] }

/-! ## Predicates used in the proofs -/

/-- The rows a `notifications_new` table holds, none when the table is absent. -/
def shadowRows (db : Db) : List NotificationRow :=
  match db.notifications_new with
  | some t => t.rows
  | none => []

/-- A log with nothing but successful opens and statements. -/
def OkLog (l : List Event) : Prop :=
  ∀ e ∈ l, e = .opened true ∨ e = .statement true

/-- A log of a script that stopped early: it stopped with status 1, something
fatal is logged, and the connection was not closed. -/
def ErrLog (stop : Stop) (l : List Event) : Prop :=
  (stop = .rejected ∨ stop = .exit 1) ∧ (∃ e ∈ l, e.fatal = true) ∧
    ∀ e ∈ l, e.isClose = false

/-- Outcome of a step read through its log. -/
def Holds {α : Type} (st : α → St) : Except (Stop × St) α → Prop
  | .ok a => OkLog (st a).log
  | .error e => ErrLog e.1 e.2.log

/-- A property of the datastore that holds however a step ends. -/
def Keeps {α : Type} (P : Db → Prop) (st : α → St) : Except (Stop × St) α → Prop
  | .ok a => P (st a).db
  | .error e => P e.2.db

/-! ## Statement executor facts -/

theorem issue_ok {α : Type} {env : Env} {sem : Db → Option (α × Db)} {s s' : St} {a : α}
    (h : issue env sem s = .ok (a, s')) :
    env.fault s.issued = false ∧ ∃ db', sem s.db = some (a, db') ∧
      s' = { db := db', issued := s.issued + 1, log := s.log ++ [.statement true] } := by
  unfold issue at h
  split at h
  · cases h
  · rename_i hf
    split at h
    · cases h
    · rename_i a' db' hsem
      cases h
      exact ⟨by simpa using hf, db', hsem, rfl⟩

theorem issue_error {α : Type} {env : Env} {sem : Db → Option (α × Db)} {s s' : St} {stop : Stop}
    (h : issue env sem s = .error (stop, s')) :
    stop = .rejected ∧
      s' = { db := s.db, issued := s.issued + 1, log := s.log ++ [.statement false] } := by
  unfold issue at h
  split at h
  · cases h; exact ⟨rfl, rfl⟩
  · split at h
    · cases h; exact ⟨rfl, rfl⟩
    · cases h

theorem bind_ok {ε α β : Type} {x : Except ε α} {f : α → Except ε β} {b : β}
    (h : x >>= f = .ok b) : ∃ a, x = .ok a ∧ f a = .ok b := by
  cases x with
  | error e => cases h
  | ok a => exact ⟨a, rfl, h⟩

theorem copyValues_row (r : NotificationRow) : (copyValues r).row r.id = relabel r := rfl

theorem insert_explicit {t t' : NotifTable} {v : Values} {id id' : Int} (hv : v.id = some id)
    (h : t.insert v = some (id', t')) :
    id' = id ∧ t'.rows = t.rows ++ [v.row id] ∧ t'.hasUserType = t.hasUserType ∧
      t.hasUserType = true ∧ v.notNullOk = true ∧ id ∉ t.rows.map (·.id) := by
  unfold NotifTable.insert at h
  rw [hv] at h
  by_cases hc : (t.hasUserType && v.notNullOk) = true
  · simp only [hc, if_true] at h
    simp only [Bool.and_eq_true] at hc
    by_cases hid : id ∈ t.rows.map (·.id)
    · simp [hid] at h
    · simp only [hid, if_false, Option.some.injEq, Prod.mk.injEq] at h
      obtain ⟨rfl, rfl⟩ := h
      exact ⟨rfl, rfl, rfl, hc.1, hc.2, hid⟩
  · simp [hc] at h

theorem insertIntoNotificationsNew_ok {r : NotificationRow} {db db' : Db} {id : Int}
    (h : insertIntoNotificationsNew r db = some (id, db')) :
    ∃ t t', db.notifications_new = some t ∧ t.hasUserType = true ∧
      db' = { db with notifications_new := some t' } ∧
      t'.rows = t.rows ++ [relabel r] ∧ t'.hasUserType = t.hasUserType := by
  unfold insertIntoNotificationsNew at h
  split at h
  · cases h
  · rename_i t ht
    split at h
    · split at h
      · cases h
      · rename_i id1 t1 hins
        cases h
        obtain ⟨_, hrows, hshape, hs, _, _⟩ := insert_explicit rfl hins
        exact ⟨t, t1, ht, hs, rfl, by rw [hrows, copyValues_row], hshape⟩
    · cases h

theorem copyLoop_ok (env : Env) :
    ∀ (rows : List NotificationRow) (s s' : St), copyLoop env rows s = .ok s' →
      s'.db.notifications = s.db.notifications ∧ s'.db.login_users = s.db.login_users ∧
      s'.db.users = s.db.users ∧ s'.db.indexes = s.db.indexes ∧
      s'.issued = s.issued + rows.length ∧
      (∀ k, s.issued ≤ k → k < s'.issued → env.fault k = false) ∧
      (rows = [] → s' = s) ∧
      (rows ≠ [] → ∃ t, s.db.notifications_new = some t ∧ t.hasUserType = true) ∧
      ∀ t, s.db.notifications_new = some t →
        ∃ t', s'.db.notifications_new = some t' ∧ t'.rows = t.rows ++ rows.map relabel ∧
          t'.hasUserType = t.hasUserType := by
  intro rows
  induction rows with
  | nil =>
    intro s s' h
    simp only [copyLoop] at h
    cases h
    refine ⟨rfl, rfl, rfl, rfl, rfl, fun k h1 h2 => absurd h2 (Nat.not_lt.2 h1), fun _ => rfl,
      fun h => absurd rfl h, fun t ht => ⟨t, ht, by simp, rfl⟩⟩
  | cons r rest ih =>
    intro s s' h
    simp only [copyLoop, runQuery] at h
    split at h
    · cases h
    · rename_i x s1 h1
      obtain ⟨hf, db1, hsem, rfl⟩ := issue_ok h1
      obtain ⟨i1, i2, i3, i4, i5, ifault, _, _, i6⟩ := ih _ _ h
      obtain ⟨t, t1, ht, hs, rfl, hrows, hshape⟩ := insertIntoNotificationsNew_ok hsem
      simp only at i1 i2 i3 i4 i5 ifault i6
      refine ⟨i1, i2, i3, i4, by simp [i5]; omega, ?_, by simp, fun _ => ⟨t, ht, hs⟩, ?_⟩
      · intro k hk1 hk2
        rcases Nat.eq_or_lt_of_le hk1 with rfl | hlt
        · exact hf
        · exact ifault k hlt hk2
      · intro t0 ht0
        rw [ht] at ht0
        cases ht0
        obtain ⟨t', h1', h2', h3'⟩ := i6 t1 rfl
        refine ⟨t', h1', ?_, by rw [h3', hshape]⟩
        rw [h2', hrows]
        simp

theorem createIndex_ok {name : String} {u : Bool} {db db' : Db} {x : Int}
    (h : createIndex name u db = some (x, db')) :
    db'.notifications = db.notifications ∧ db'.notifications_new = db.notifications_new ∧
      db'.login_users = db.login_users ∧ db'.users = db.users ∧
      (u = true → name ∉ db.indexes.map (·.1) →
        ∃ t, db.notifications = some t ∧ t.hasUserType = true) := by
  unfold createIndex at h
  split at h
  · cases h
  · rename_i t ht
    by_cases hn : name ∈ db.indexes.map (·.1)
    · simp only [hn, if_true, Option.some.injEq, Prod.mk.injEq] at h
      obtain ⟨_, rfl⟩ := h
      exact ⟨rfl, rfl, rfl, rfl, fun _ hc => absurd hn hc⟩
    · simp only [hn, if_false] at h
      by_cases hu : (u && !t.hasUserType) = true
      · simp [hu] at h
      · simp only [hu, if_false, Option.some.injEq, Prod.mk.injEq] at h
        obtain ⟨_, rfl⟩ := h
        refine ⟨rfl, rfl, rfl, rfl, fun hu1 _ => ⟨t, ht, ?_⟩⟩
        subst hu1
        simpa using hu

theorem migrationBody_ok {env : Env} {s0 s8 : St} (h : migrationBody env s0 = .ok s8) :
    ∃ legacy t', s0.db.notifications = some legacy ∧ s8.db.notifications = some t' ∧
      t'.rows = shadowRows s0.db ++ (legacy.rows.map jsRow).map relabel ∧
      s8.db.notifications_new = none ∧ s8.db.login_users = s0.db.login_users ∧
      s8.db.users = s0.db.users ∧
      s8.issued = s0.issued + legacy.rows.length + 7 ∧
      ∀ k, s0.issued ≤ k → k < s8.issued → env.fault k = false := by
  unfold migrationBody at h
  obtain ⟨⟨_, s1⟩, h1, h⟩ := bind_ok h
  obtain ⟨⟨rows, s2⟩, h2, h⟩ := bind_ok h
  obtain ⟨s3, h3, h⟩ := bind_ok h
  obtain ⟨⟨_, s4⟩, h4, h⟩ := bind_ok h
  obtain ⟨⟨_, s5⟩, h5, h⟩ := bind_ok h
  obtain ⟨⟨_, s6⟩, h6, h⟩ := bind_ok h
  obtain ⟨⟨_, s7⟩, h7, h⟩ := bind_ok h
  obtain ⟨⟨_, s8'⟩, h8, h⟩ := bind_ok h
  cases h
  obtain ⟨f1, db1, e1, rfl⟩ := issue_ok h1
  obtain ⟨f2, db2, e2, rfl⟩ := issue_ok h2
  obtain ⟨c1, c2, c3, c4, cn, cf, _, _, c5⟩ := copyLoop_ok env rows _ _ h3
  obtain ⟨f4, db4, e4, rfl⟩ := issue_ok h4
  obtain ⟨f5, db5, e5, rfl⟩ := issue_ok h5
  obtain ⟨f6, db6, e6, rfl⟩ := issue_ok h6
  obtain ⟨f7, db7, e7, rfl⟩ := issue_ok h7
  obtain ⟨f8, db8, e8, rfl⟩ := issue_ok h8
  obtain ⟨i1, i2, i3, i4, _⟩ := createIndex_ok e6
  obtain ⟨j1, j2, j3, j4, _⟩ := createIndex_ok e7
  obtain ⟨k1, k2, k3, k4, _⟩ := createIndex_ok e8
  simp only at e1 e2 e4 e5 c1 c2 c3 c4 c5 cn cf f1 f2 f4 f5 f6 f7 f8
  simp only at i1 i2 i3 i4 j1 j2 j3 j4 k1 k2 k3 k4 ⊢
  -- the SELECT saw the old table, which CREATE TABLE left alone
  have hsel : ∃ legacy, s0.db.notifications = some legacy ∧ db2 = db1 ∧
      rows = legacy.rows.map jsRow ∧
      db1.notifications = some legacy ∧ db1.login_users = s0.db.login_users ∧
      db1.users = s0.db.users ∧
      ∃ t1, db1.notifications_new = some t1 ∧ t1.rows = shadowRows s0.db := by
    unfold selectAllNotifications at e2
    unfold createNotificationsNew at e1
    cases hl : db1.notifications with
    | none => simp [hl] at e2
    | some legacy =>
      simp only [hl, Option.map_some', Option.some.injEq, Prod.mk.injEq] at e2
      obtain ⟨rfl, rfl⟩ := e2
      refine ⟨legacy, ?_, rfl, rfl, rfl, ?_⟩
      · split at e1
        · cases e1; exact hl
        · cases e1; exact hl
      · split at e1
        · rename_i t ht
          cases e1
          exact ⟨rfl, rfl, t, ht, by simp [shadowRows, ht]⟩
        · rename_i ht
          cases e1
          exact ⟨rfl, rfl, _, rfl, by simp [shadowRows, ht]⟩
  obtain ⟨legacy, hl0, rfl, rfl, hl1, hu1, hu2, t1, ht1, hrows1⟩ := hsel
  obtain ⟨t3, ht3, hrows3, _⟩ := c5 t1 ht1
  rw [List.length_map] at cn
  have hcount : s3.issued + 1 + 1 + 1 + 1 + 1 = s0.issued + legacy.rows.length + 7 := by
    omega
  have hfault : ∀ k, s0.issued ≤ k → k < s3.issued + 1 + 1 + 1 + 1 + 1 →
      env.fault k = false := by
    intro k hk1 hk2
    have hcase : k = s0.issued ∨ k = s0.issued + 1 ∨
        (s0.issued + 1 + 1 ≤ k ∧ k < s3.issued) ∨ k = s3.issued ∨ k = s3.issued + 1 ∨
        k = s3.issued + 1 + 1 ∨ k = s3.issued + 1 + 1 + 1 ∨
        k = s3.issued + 1 + 1 + 1 + 1 := by omega
    rcases hcase with rfl | rfl | ⟨a, b⟩ | rfl | rfl | rfl | rfl | rfl
    · exact f1
    · exact f2
    · exact cf k a b
    · exact f4
    · exact f5
    · exact f6
    · exact f7
    · exact f8
  refine ⟨legacy, t3, hl0, ?_, by rw [hrows3, hrows1], ?_, ?_, ?_, hcount, hfault⟩
  all_goals
    unfold dropNotifications at e4
    unfold renameNotificationsNew at e5
    rw [c1, hl1] at e4
    simp only [Option.some.injEq, Prod.mk.injEq] at e4
    obtain ⟨_, rfl⟩ := e4
    simp only [ht3] at e5
    simp only [Option.some.injEq, Prod.mk.injEq] at e5
    obtain ⟨_, rfl⟩ := e5
    simp [k1, j1, i1, k2, j2, i2, k3, j3, i3, k4, j4, i4, c2, c3, hu1, hu2]

/-! ## Logs of the two scripts -/

theorem OkLog.noClose {l : List Event} (h : OkLog l) : ∀ e ∈ l, e.isClose = false := by
  intro e he
  rcases h e he with rfl | rfl <;> rfl

theorem OkLog.noFatal {l : List Event} (h : OkLog l) : ∀ e ∈ l, e.fatal = false := by
  intro e he
  rcases h e he with rfl | rfl <;> rfl

theorem OkLog.snoc {l : List Event} (h : OkLog l) : OkLog (l ++ [.statement true]) := by
  intro e he
  rcases List.mem_append.1 he with h1 | h1
  · exact h e h1
  · simp only [List.mem_singleton] at h1
    exact Or.inr h1

theorem holds_bind {α β : Type} {st : α → St} {st' : β → St} {x : Except (Stop × St) α}
    {f : α → Except (Stop × St) β} (hx : Holds st x)
    (hf : ∀ a, OkLog (st a).log → Holds st' (f a)) : Holds st' (x >>= f) := by
  cases x with
  | error e => exact hx
  | ok a => exact hf a hx

theorem issue_holds {α : Type} (env : Env) (sem : Db → Option (α × Db)) (s : St)
    (hs : OkLog s.log) : Holds Prod.snd (issue env sem s) := by
  have herr : ErrLog .rejected (s.log ++ [.statement false]) := by
    refine ⟨Or.inl rfl, ⟨.statement false, by simp, rfl⟩, ?_⟩
    intro e he
    rcases List.mem_append.1 he with h1 | h1
    · exact hs.noClose e h1
    · simp only [List.mem_singleton] at h1
      subst h1
      rfl
  unfold issue
  split
  · exact herr
  · split
    · exact herr
    · exact hs.snoc

theorem copyLoop_holds (env : Env) :
    ∀ (rows : List NotificationRow) (s : St), OkLog s.log → Holds id (copyLoop env rows s) := by
  intro rows
  induction rows with
  | nil => intro s hs; exact hs
  | cons r rest ih =>
    intro s hs
    have h1 := issue_holds env (insertIntoNotificationsNew r) s hs
    simp only [copyLoop, runQuery]
    split
    · rename_i e he
      rw [he] at h1
      exact h1
    · rename_i x s1 he
      rw [he] at h1
      exact ih s1 h1

theorem migrationBody_holds (env : Env) (s0 : St) (hs : OkLog s0.log) :
    Holds id (migrationBody env s0) := by
  unfold migrationBody
  refine holds_bind (issue_holds env _ s0 hs) (fun a1 h1 => ?_)
  refine holds_bind (issue_holds env _ _ h1) (fun a2 h2 => ?_)
  refine holds_bind (copyLoop_holds env _ _ h2) (fun a3 h3 => ?_)
  refine holds_bind (issue_holds env _ _ h3) (fun a4 h4 => ?_)
  refine holds_bind (issue_holds env _ _ h4) (fun a5 h5 => ?_)
  refine holds_bind (issue_holds env _ _ h5) (fun a6 h6 => ?_)
  refine holds_bind (issue_holds env _ _ h6) (fun a7 h7 => ?_)
  refine holds_bind (issue_holds env _ _ h7) (fun a8 h8 => ?_)
  exact h8

theorem ensureCustomer_holds (env : Env) (found : Option Customer) (s : St)
    (hs : OkLog s.log) : Holds Prod.snd (ensureCustomer env found s) := by
  unfold ensureCustomer
  cases found with
  | some c => exact hs
  | none =>
    have h1 := issue_holds env insertTestCustomer s hs
    simp only [runQuery]
    split
    · rename_i e he
      rw [he] at h1
      exact h1
    · rename_i x s1 he
      rw [he] at h1
      exact h1

theorem testBody_holds (env : Env) (s0 : St) (hs : OkLog s0.log) :
    Holds id (testBody env s0) := by
  unfold testBody
  refine holds_bind (issue_holds env _ s0 hs) (fun a1 h1 => ?_)
  obtain ⟨found, s1⟩ := a1
  refine holds_bind (ensureCustomer_holds env found s1 h1) (fun a2 h2 => ?_)
  obtain ⟨customer, s2⟩ := a2
  refine holds_bind (issue_holds env _ _ h2) (fun a3 h3 => ?_)
  obtain ⟨adminRow, s3⟩ := a3
  cases adminRow with
  | none =>
    refine ⟨Or.inr rfl, ⟨.fixtureMissing, by simp, rfl⟩, ?_⟩
    intro e he
    rcases List.mem_append.1 he with h | h
    · exact OkLog.noClose h3 e h
    · simp only [List.mem_singleton] at h
      subst h
      rfl
  | some admin =>
    refine holds_bind (issue_holds env _ _ h3) (fun a4 h4 => ?_)
    refine holds_bind (issue_holds env _ _ h4) (fun a5 h5 => ?_)
    refine holds_bind (issue_holds env _ _ h5) (fun a6 h6 => ?_)
    refine holds_bind (issue_holds env _ _ h6) (fun a7 h7 => ?_)
    refine holds_bind (issue_holds env _ _ h7) (fun a8 h8 => ?_)
    refine holds_bind (issue_holds env _ _ h8) (fun a9 h9 => ?_)
    exact h9

/-! ## Process runs -/

theorem runScript_facts (env : Env) (body : St → Except (Stop × St) St) (db : Db)
    (hb : Holds id (body (start db))) :
    ((runScript env body db).status = 0 ∨ (runScript env body db).status = 1) ∧
    ((runScript env body db).status = 0 ↔ ∀ e ∈ (runScript env body db).log, e.fatal = false) ∧
    ((runScript env body db).status = 0 →
      env.openFails = false ∧ (runScript env body db).closes = 1 ∧
        ∃ s, body (start db) = .ok s ∧ (runScript env body db).db = s.db) ∧
    ((runScript env body db).status = 1 → (runScript env body db).closes = 0) := by
  have hcount : ∀ l : List Event, (∀ e ∈ l, e.isClose = false) →
      List.countP Event.isClose l = 0 := by
    intro l hl
    rw [List.countP_eq_zero]
    intro e he
    simp [hl e he]
  cases ho : env.openFails with
  | true =>
    have hrun : runScript env body db = { db := db, status := 1, log := [.opened false] } := by
      simp [runScript, ho]
    rw [hrun]
    refine ⟨Or.inr rfl, ⟨fun h => (by cases h), fun h => ?_⟩, fun h => (by cases h), fun _ => rfl⟩
    have := h (.opened false) (by simp)
    simp [Event.fatal] at this
  | false =>
    cases hbody : body (start db) with
    | ok s =>
      have hrun : runScript env body db =
          { db := s.db, status := 0, log := s.log ++ [.closed (!env.closeFails)] } := by
        simp [runScript, ho, hbody]
      rw [hbody] at hb
      have hok : OkLog s.log := hb
      rw [hrun]
      refine ⟨Or.inl rfl, ⟨fun _ e he => ?_, fun _ => rfl⟩, fun _ => ⟨rfl, ?_, s, rfl, rfl⟩,
        fun h => by cases h⟩
      · rcases List.mem_append.1 he with h | h
        · exact hok.noFatal e h
        · simp only [List.mem_singleton] at h
          subst h
          rfl
      · show List.countP Event.isClose (s.log ++ [.closed (!env.closeFails)]) = 1
        rw [List.countP_append, hcount s.log hok.noClose]
        rfl
    | error e =>
      obtain ⟨stop, s⟩ := e
      rw [hbody] at hb
      obtain ⟨hstop, ⟨e, he, hfatal⟩, hclose⟩ : ErrLog stop s.log := hb
      have hrun : runScript env body db = { db := s.db, status := 1, log := s.log } := by
        rcases hstop with rfl | rfl <;> simp [runScript, ho, hbody]
      rw [hrun]
      refine ⟨Or.inr rfl, ⟨fun h => (by cases h), fun h => ?_⟩, fun h => (by cases h),
        fun _ => hcount s.log hclose⟩
      have := h e he
      simp [hfatal] at this

theorem start_okLog (db : Db) : OkLog (start db).log := by
  intro e he
  simp only [start, List.mem_singleton] at he
  exact Or.inl he

theorem fixNotificationsSchema_facts (env : Env) (db : Db) :
    ((fixNotificationsSchema env db).status = 0 ∨ (fixNotificationsSchema env db).status = 1) ∧
    ((fixNotificationsSchema env db).status = 0 ↔
      ∀ e ∈ (fixNotificationsSchema env db).log, e.fatal = false) ∧
    ((fixNotificationsSchema env db).status = 0 →
      env.openFails = false ∧ (fixNotificationsSchema env db).closes = 1 ∧
        ∃ s, migrationBody env (start db) = .ok s ∧ (fixNotificationsSchema env db).db = s.db) ∧
    ((fixNotificationsSchema env db).status = 1 → (fixNotificationsSchema env db).closes = 0) :=
  runScript_facts env (migrationBody env) db (migrationBody_holds env _ (start_okLog db))

theorem testNotifications_facts (env : Env) (db : Db) :
    ((testNotifications env db).status = 0 ∨ (testNotifications env db).status = 1) ∧
    ((testNotifications env db).status = 0 ↔
      ∀ e ∈ (testNotifications env db).log, e.fatal = false) ∧
    ((testNotifications env db).status = 0 →
      env.openFails = false ∧ (testNotifications env db).closes = 1 ∧
        ∃ s, testBody env (start db) = .ok s ∧ (testNotifications env db).db = s.db) ∧
    ((testNotifications env db).status = 1 → (testNotifications env db).closes = 0) :=
  runScript_facts env (testBody env) db (testBody_holds env _ (start_okLog db))

/-- What a successful migration leaves in `notifications`: the rows that were
already in `notifications_new`, followed by the old rows as the script read
them, relabelled; and none of the statements it issued was rejected by the
environment. -/
theorem migration_result {env : Env} {db : Db}
    (h : (fixNotificationsSchema env db).status = 0) :
    ∃ legacy t', db.notifications = some legacy ∧
      (fixNotificationsSchema env db).db.notifications = some t' ∧
      t'.rows = shadowRows db ++ (legacy.rows.map jsRow).map relabel ∧
      (fixNotificationsSchema env db).db.notifications_new = none ∧
      (fixNotificationsSchema env db).db.login_users = db.login_users ∧
      (fixNotificationsSchema env db).db.users = db.users ∧
      ∀ k, k < legacy.rows.length + 7 → env.fault k = false := by
  obtain ⟨_, _, s, hs, hdb⟩ := (fixNotificationsSchema_facts env db).2.2.1 h
  obtain ⟨legacy, t', h1, h2, h3, h4, h5, h6, h7, h8⟩ := migrationBody_ok hs
  rw [hdb]
  refine ⟨legacy, t', h1, h2, h3, h4, h5, h6, fun k hk => h8 k (Nat.zero_le k) ?_⟩
  rw [h7]
  simpa [start] using hk

/-! ## Numbers the scripts hold exactly -/

theorem roundNat_of_le (m : Nat) (h : m ≤ 2 ^ 53) : roundNat m = m := by
  rcases Nat.lt_or_ge m (2 ^ 53) with hlt | hge
  · have he : excessBits 64 m = 0 := by
      show (if m < 2 ^ 53 then 0 else excessBits 63 (m / 2) + 1) = 0
      exact if_pos hlt
    simp [roundNat, he, Nat.mod_one]
  · have : m = 2 ^ 53 := Nat.le_antisymm h hge
    subst this
    decide

theorem jsNumber_of_safe (x : Int) (h : jsSafe x = true) : jsNumber x = x := by
  have h' : x.natAbs ≤ 2 ^ 53 := by simpa [jsSafe] using h
  unfold jsNumber
  rw [roundNat_of_le _ h']
  split <;> omega

theorem rowidBindable_of_safe (x : Int) (h : jsSafe x = true) : rowidBindable x = true := by
  have h' : x.natAbs ≤ 2 ^ 53 := by simpa [jsSafe] using h
  simp only [rowidBindable, Bool.and_eq_true, decide_eq_true_eq]
  constructor <;> omega

theorem map_jsNumber_of_safe (o : Option Int) (h : o.all jsSafe = true) :
    o.map jsNumber = o := by
  cases o with
  | none => rfl
  | some x =>
    simp only [Option.all_some] at h
    simp [jsNumber_of_safe x h]

theorem jsRow_of_safe (r : NotificationRow) (h : r.jsSafe = true) : jsRow r = r := by
  simp only [NotificationRow.jsSafe, Bool.and_eq_true] at h
  obtain ⟨⟨⟨⟨⟨h1, h2⟩, h3⟩, h4⟩, h5⟩, h6⟩ := h
  cases r
  simp only [jsRow, NotificationRow.mk.injEq, and_true, true_and]
  exact ⟨jsNumber_of_safe _ h1, map_jsNumber_of_safe _ h2, map_jsNumber_of_safe _ h3,
    map_jsNumber_of_safe _ h4, map_jsNumber_of_safe _ h5, map_jsNumber_of_safe _ h6⟩

theorem map_jsRow_of_safe (rows : List NotificationRow)
    (h : ∀ r ∈ rows, r.jsSafe = true) : rows.map jsRow = rows := by
  induction rows with
  | nil => rfl
  | cons r rest ih =>
    simp only [List.map_cons]
    rw [jsRow_of_safe r (h r (List.mem_cons_self _ _)),
      ih (fun r' hr' => h r' (List.mem_cons_of_mem _ hr'))]

/-! ## The migration: what it keeps -/

theorem carried_relabel (r : NotificationRow) : Carried r (relabel r) :=
  ⟨rfl, rfl, rfl, rfl, rfl, rfl, rfl, rfl, rfl, rfl, rfl⟩

/-- C1, as stated, fails: the script holds every column in a JavaScript number,
so the old row with id 2^53 + 1 is copied, with no call failing, to a row with
id 2^53, and the resulting table has no row with the id the old row had. -/
theorem id_above_two_pow_53_is_not_kept :
    bigRow.id = 9007199254740993 ∧
      (∀ e ∈ (fixNotificationsSchema calmEnv (legacyDb [bigRow])).log, e.fatal = false) ∧
      (fixNotificationsSchema calmEnv (legacyDb [bigRow])).db.notifications.map
        (fun t => t.rows.map (·.id)) = some [9007199254740992] := by
  decide

/-- C1, amended: whenever `fixNotificationsSchema` runs through all its steps
with no call failing, every row of the old notifications table whose integer
columns are at most 2^53 in magnitude has a row in the resulting table with the
same id, user_id, restaurant_id, booking_id, order_id, title, message, type,
is_read and created_at, and with user_type customer; and every old row
whatsoever has such a row for the values the script read, its integers rounded
to the nearest JavaScript number. -/
theorem migration_keeps_every_row (env : Env) (db : Db) (legacy : NotifTable)
    (hlegacy : db.notifications = some legacy)
    (hdone : ∀ e ∈ (fixNotificationsSchema env db).log, e.fatal = false) :
    (∀ r ∈ legacy.rows, r.jsSafe = true →
      ∃ t', (fixNotificationsSchema env db).db.notifications = some t' ∧
        ∃ r' ∈ t'.rows, Carried r r') ∧
    (∀ r ∈ legacy.rows,
      ∃ t', (fixNotificationsSchema env db).db.notifications = some t' ∧
        ∃ r' ∈ t'.rows, Carried (jsRow r) r') := by
  have hstatus := (fixNotificationsSchema_facts env db).2.1.2 hdone
  obtain ⟨legacy', t', h1, h2, h3, _⟩ := migration_result hstatus
  rw [hlegacy] at h1
  cases h1
  have hall : ∀ r ∈ legacy.rows, ∃ r' ∈ t'.rows, Carried (jsRow r) r' := by
    intro r hr
    refine ⟨relabel (jsRow r), ?_, carried_relabel _⟩
    rw [h3]
    exact List.mem_append_right _
      (List.mem_map_of_mem relabel (List.mem_map_of_mem jsRow hr))
  constructor
  · intro r hr hsafe
    obtain ⟨r', hr', hc⟩ := hall r hr
    rw [jsRow_of_safe r hsafe] at hc
    exact ⟨t', h2, r', hr', hc⟩
  · intro r hr
    exact ⟨t', h2, hall r hr⟩

theorem migration_keeps_every_row_witness :
    (legacyDb [welcomeRow]).notifications
        = some { hasUserType := false, rows := [welcomeRow], seq := 0 } ∧
      (∀ e ∈ (fixNotificationsSchema calmEnv (legacyDb [welcomeRow])).log, e.fatal = false) ∧
      ∀ r ∈ [welcomeRow], r.jsSafe = true → ∃ t',
        (fixNotificationsSchema calmEnv (legacyDb [welcomeRow])).db.notifications = some t' ∧
          ∃ r' ∈ t'.rows, Carried r r' :=
  ⟨rfl, by decide,
    (migration_keeps_every_row calmEnv (legacyDb [welcomeRow])
      { hasUserType := false, rows := [welcomeRow], seq := 0 } rfl (by decide)).1⟩

/-- C2, as stated, fails twice. With a `notifications_new` table that already
holds a row with id 2, the migration of the one-row scenario table succeeds and
leaves two rows, one of them with id 2, where the old table had the single id
1. And with no `notifications_new` table, the old row with id 2^53 + 1 comes
out, in a successful run, with id 2^53. -/
theorem migration_result_is_not_exact :
    ((fixNotificationsSchema calmEnv staleShadowDb).status = 0 ∧
      staleShadowDb.notifications.map (fun t => t.rows.map (·.id)) = some [1] ∧
      (fixNotificationsSchema calmEnv staleShadowDb).db.notifications.map
        (fun t => (t.rows.length, decide (2 ∈ t.rows.map (·.id)))) = some (2, true)) ∧
    ((fixNotificationsSchema calmEnv (legacyDb [bigRow])).status = 0 ∧
      shadowRows (legacyDb [bigRow]) = [] ∧
      (legacyDb [bigRow]).notifications.map (fun t => t.rows.map (·.id))
        = some [9007199254740993] ∧
      (fixNotificationsSchema calmEnv (legacyDb [bigRow])).db.notifications.map
        (fun t => t.rows.map (·.id)) = some [9007199254740992]) := by
  decide

/-- C2, amended: when `notifications_new` is absent or holds no row before the
run and `fixNotificationsSchema` succeeds, the resulting notifications table
holds one row for each old row and nothing else, so as many rows as before;
when every old id is at most 2^53 in magnitude the ids are the same, and when
every integer column is, the table holds exactly the old rows with user_type
set to customer. -/
theorem migration_exact_on_empty_shadow (env : Env) (db : Db) (legacy : NotifTable)
    (hlegacy : db.notifications = some legacy) (hshadow : shadowRows db = [])
    (hok : (fixNotificationsSchema env db).status = 0) :
    ∃ t', (fixNotificationsSchema env db).db.notifications = some t' ∧
      t'.rows = (legacy.rows.map jsRow).map relabel ∧
      t'.rows.length = legacy.rows.length ∧
      ((∀ r ∈ legacy.rows, jsSafe r.id = true) →
        t'.rows.map (·.id) = legacy.rows.map (·.id)) ∧
      ((∀ r ∈ legacy.rows, r.jsSafe = true) → t'.rows = legacy.rows.map relabel) := by
  obtain ⟨legacy', t', h1, h2, h3, _⟩ := migration_result hok
  rw [hlegacy] at h1
  cases h1
  rw [hshadow, List.nil_append] at h3
  refine ⟨t', h2, h3, by rw [h3, List.length_map, List.length_map], ?_, ?_⟩
  · intro hid
    rw [h3, List.map_map, List.map_map]
    apply List.map_congr_left
    intro r hr
    exact jsNumber_of_safe r.id (hid r hr)
  · intro hsafe
    rw [h3, map_jsRow_of_safe legacy.rows hsafe]

theorem migration_exact_on_empty_shadow_witness :
    (legacyDb [welcomeRow]).notifications
        = some { hasUserType := false, rows := [welcomeRow], seq := 0 } ∧
      shadowRows (legacyDb [welcomeRow]) = [] ∧
      (fixNotificationsSchema calmEnv (legacyDb [welcomeRow])).status = 0 ∧
      ∃ t', (fixNotificationsSchema calmEnv (legacyDb [welcomeRow])).db.notifications = some t' ∧
        t'.rows = ([welcomeRow].map jsRow).map relabel ∧
        t'.rows.length = [welcomeRow].length ∧
        ((∀ r ∈ [welcomeRow], jsSafe r.id = true) →
          t'.rows.map (·.id) = [welcomeRow].map (·.id)) ∧
        ((∀ r ∈ [welcomeRow], r.jsSafe = true) → t'.rows = [welcomeRow].map relabel) :=
  ⟨rfl, rfl, by decide,
    migration_exact_on_empty_shadow calmEnv (legacyDb [welcomeRow])
      { hasUserType := false, rows := [welcomeRow], seq := 0 } rfl rfl (by decide)⟩

/-! ## Exit status and the connection -/

/-- C7 at three failing runs: the migration on a file without a notifications
table, the validation script without an admin, and the validation script on a
file without tables all exit with status 1 and never close the connection. -/
theorem failing_runs_never_close :
    ((fixNotificationsSchema calmEnv noTablesDb).status = 1 ∧
      (fixNotificationsSchema calmEnv noTablesDb).closes = 0) ∧
    ((testNotifications calmEnv noAdminDb).status = 1 ∧
      (testNotifications calmEnv noAdminDb).closes = 0) ∧
    ((testNotifications calmEnv noTablesDb).status = 1 ∧
      (testNotifications calmEnv noTablesDb).closes = 0) := by
  decide

/-! ## The migration on a table that already has the new shape -/

theorem issue_calm {α : Type} {env : Env} {sem : Db → Option (α × Db)} {s : St} {a : α}
    {db' : Db} (hf : env.fault s.issued = false) (hsem : sem s.db = some (a, db')) :
    issue env sem s
      = .ok (a, { db := db', issued := s.issued + 1, log := s.log ++ [.statement true] }) := by
  simp [issue, hf, hsem]

theorem ok_bind {ε α β : Type} {x : Except ε α} {a : α} (f : α → Except ε β)
    (h : x = .ok a) : x >>= f = f a := by
  subst h
  rfl

theorem copyLoop_calm (env : Env) (hcalm : ∀ k, env.fault k = false) :
    ∀ (rows : List NotificationRow) (s : St) (t : NotifTable),
      s.db.notifications_new = some t → t.hasUserType = true →
      (∀ r ∈ rows, r.user_id.isSome = true ∧ r.title.isSome = true ∧ r.message.isSome = true) →
      (∀ r ∈ rows, rowidBindable r.id = true) →
      (rows.map (·.id)).Nodup → (∀ r ∈ rows, r.id ∉ t.rows.map (·.id)) →
      ∃ s', copyLoop env rows s = .ok s' := by
  intro rows
  induction rows with
  | nil => intro s t _ _ _ _ _ _; exact ⟨s, rfl⟩
  | cons r rest ih =>
    intro s t ht hshape hnn hbind hnd hfresh
    obtain ⟨hu, hti, hm⟩ := hnn r (List.mem_cons_self _ _)
    have hb : rowidBindable r.id = true := hbind r (List.mem_cons_self _ _)
    have hid : r.id ∉ t.rows.map (·.id) := hfresh r (List.mem_cons_self _ _)
    have hins : t.insert (copyValues r)
        = some (r.id, { t with rows := t.rows ++ [relabel r], seq := max t.seq r.id }) := by
      simp only [NotifTable.insert, Values.notNullOk, copyValues, hshape, hu, hti, hm,
        Option.isSome_some, Bool.and_self, if_true, hid, if_false]
      rfl
    have hsem : insertIntoNotificationsNew r s.db
        = some (r.id, { s.db with
            notifications_new :=
              some { t with rows := t.rows ++ [relabel r], seq := max t.seq r.id } }) := by
      simp only [insertIntoNotificationsNew, ht, hb, if_true, hins]
    have hstep := issue_calm (hcalm s.issued) hsem
    simp only [copyLoop, runQuery, hstep]
    simp only [List.map_cons, List.nodup_cons] at hnd
    refine ih _ { t with rows := t.rows ++ [relabel r], seq := max t.seq r.id } rfl hshape
      (fun r' hr' => hnn r' (List.mem_cons_of_mem _ hr'))
      (fun r' hr' => hbind r' (List.mem_cons_of_mem _ hr')) hnd.2 ?_
    intro r' hr' hmem
    simp only [List.map_append, List.map_cons, List.map_nil, List.mem_append,
      List.mem_singleton] at hmem
    rcases hmem with h | h
    · exact hfresh r' (List.mem_cons_of_mem _ hr') h
    · apply hnd.1
      have : r.id = r'.id := by rw [h]; rfl
      rw [this]
      exact List.mem_map_of_mem (·.id) hr'

theorem issue_calm_db {α : Type} (env : Env) (sem : Db → Option (α × Db)) (s : St) {a : α}
    {db' : Db} (hf : env.fault s.issued = false) (hsem : sem s.db = some (a, db')) :
    ∃ s', issue env sem s = .ok (a, s') ∧ s'.db = db' :=
  ⟨_, issue_calm hf hsem, rfl⟩

theorem createNotificationsNew_some {db : Db} (hnew : db.notifications_new = none) :
    ∃ db', createNotificationsNew db = some (0, db') ∧ db'.notifications = db.notifications ∧
      db'.notifications_new = some { hasUserType := true, rows := [], seq := 0 } := by
  unfold createNotificationsNew
  rw [hnew]
  exact ⟨_, rfl, rfl, rfl⟩

theorem dropNotifications_some {db : Db} {t : NotifTable} (ht : db.notifications = some t) :
    ∃ db', dropNotifications db = some (0, db') ∧ db'.notifications = none ∧
      db'.notifications_new = db.notifications_new := by
  unfold dropNotifications
  rw [ht]
  exact ⟨_, rfl, rfl, rfl⟩

theorem renameNotificationsNew_some (db : Db) {t : NotifTable}
    (ht : db.notifications_new = some t) (hn : db.notifications = none) :
    ∃ db', renameNotificationsNew db = some (0, db') ∧ db'.notifications = some t := by
  unfold renameNotificationsNew
  rw [ht, hn]
  exact ⟨_, rfl, rfl⟩

theorem createIndex_some (name : String) (u : Bool) (db : Db) {t : NotifTable}
    (ht : db.notifications = some t) (hshape : t.hasUserType = true) :
    ∃ db', createIndex name u db = some (0, db') ∧ db'.notifications = some t := by
  unfold createIndex
  by_cases hn : name ∈ db.indexes.map (·.1)
  · exact ⟨db, by simp [hn, ht], ht⟩
  · exact ⟨{ db with indexes := db.indexes ++ [(name, "notifications")] },
      by simp [hn, hshape, ht], ht⟩

theorem migrationBody_calm (env : Env) (hcalm : ∀ k, env.fault k = false) (s0 : St)
    (t : NotifTable) (ht : s0.db.notifications = some t) (hnew : s0.db.notifications_new = none)
    (hnn : ∀ r ∈ t.rows,
      r.user_id.isSome = true ∧ r.title.isSome = true ∧ r.message.isSome = true)
    (hnd : (t.rows.map (·.id)).Nodup) (hsafe : ∀ r ∈ t.rows, r.jsSafe = true) :
    ∃ s8, migrationBody env s0 = .ok s8 := by
  obtain ⟨db1, e1, n1, m1⟩ := createNotificationsNew_some hnew
  obtain ⟨s1, h1, d1⟩ := issue_calm_db env _ s0 (hcalm _) e1
  have hbind : ∀ r ∈ t.rows, rowidBindable r.id = true := by
    intro r hr
    have h := hsafe r hr
    simp only [NotificationRow.jsSafe, Bool.and_eq_true] at h
    exact rowidBindable_of_safe _ h.1.1.1.1.1
  have e2 : (fun db => (selectAllNotifications db).map (fun rows => (rows, db))) s1.db
      = some (t.rows, s1.db) := by
    simp [selectAllNotifications, d1, n1, ht, map_jsRow_of_safe t.rows hsafe]
  obtain ⟨s2, h2, d2⟩ := issue_calm_db env
    (fun db => (selectAllNotifications db).map (fun rows => (rows, db))) s1 (hcalm _) e2
  obtain ⟨s3, h3⟩ := copyLoop_calm env hcalm t.rows s2
    { hasUserType := true, rows := [], seq := 0 } (by rw [d2, d1, m1]) rfl hnn hbind hnd
    (by simp)
  obtain ⟨c1, _, _, _, _, _, _, _, c5⟩ := copyLoop_ok env _ _ _ h3
  obtain ⟨t3, ht3, _, hshape3⟩ := c5 _ (by rw [d2, d1, m1])
  simp only at hshape3
  rw [d2, d1, n1, ht] at c1
  obtain ⟨db4, e4, n4, m4⟩ := dropNotifications_some c1
  obtain ⟨s4, h4, d4⟩ := issue_calm_db env _ s3 (hcalm _) e4
  obtain ⟨db5, e5, n5⟩ := renameNotificationsNew_some s4.db
    (by rw [d4, m4, ht3]) (by rw [d4, n4])
  obtain ⟨s5, h5, d5⟩ := issue_calm_db env _ s4 (hcalm _) e5
  obtain ⟨db6, e6, n6⟩ := createIndex_some "idx_notifications_user" true s5.db
    (by rw [d5, n5]) hshape3
  obtain ⟨s6, h6, d6⟩ := issue_calm_db env _ s5 (hcalm _) e6
  obtain ⟨db7, e7, n7⟩ := createIndex_some "idx_notifications_read" false s6.db
    (by rw [d6, n6]) hshape3
  obtain ⟨s7, h7, d7⟩ := issue_calm_db env _ s6 (hcalm _) e7
  obtain ⟨db8, e8, n8⟩ := createIndex_some "idx_notifications_created" false s7.db
    (by rw [d7, n7]) hshape3
  obtain ⟨s8, h8, d8⟩ := issue_calm_db env _ s7 (hcalm _) e8
  refine ⟨s8, ?_⟩
  unfold migrationBody
  simp only [runQuery, getAll]
  rw [ok_bind _ h1]
  simp only []
  rw [ok_bind _ h2]
  simp only []
  rw [ok_bind _ h3, ok_bind _ h4]
  simp only []
  rw [ok_bind _ h5]
  simp only []
  rw [ok_bind _ h6]
  simp only []
  rw [ok_bind _ h7]
  simp only []
  rw [ok_bind _ h8]
  rfl

theorem runScript_ok {env : Env} {body : St → Except (Stop × St) St} {db : Db} {s : St}
    (hopen : env.openFails = false) (hbody : body (start db) = .ok s) :
    (runScript env body db).status = 0 := by
  simp [runScript, hopen, hbody]

theorem map_eq_self_iff {α : Type} (f : α → α) :
    ∀ l : List α, l.map f = l ↔ ∀ x ∈ l, f x = x := by
  intro l
  induction l with
  | nil => simp
  | cons a l ih => simp [ih]

theorem relabel_eq_self_iff (r : NotificationRow) :
    relabel r = r ↔ r.user_type = some "customer" := by
  constructor
  · intro h
    rw [← h]
    rfl
  · intro h
    cases r
    simp only [relabel] at h ⊢
    simp only [NotificationRow.mk.injEq, true_and, and_true]
    exact h.symm

/-- C10, as stated, fails: a table in the new shape whose rows have the ids 2^53
and 2^53 + 1 is read by the script with both ids as 2^53, the second copying
INSERT collides on the primary key, and the run, with no `notifications_new`
table and no failure of the environment, ends with status 1. -/
theorem remigration_fails_on_ids_above_two_pow_53 :
    twinDb.notifications = some twinTable ∧ InTargetShape twinTable ∧
      twinDb.notifications_new = none ∧
      (fixNotificationsSchema calmEnv twinDb).status = 1 := by
  decide

/-- C10, amended: on a notifications table that already has the shape the
migration creates and whose integer columns are at most 2^53 in magnitude, with
no `notifications_new` table and no call failing, the migration succeeds and
yields the same rows, same ids and same values in every column but
`user_type`, with every `user_type` set back to customer; so the
result equals the table it started from only when every row was a customer row
already. -/
theorem remigration_relabels_every_row (env : Env) (db : Db) (t : NotifTable)
    (ht : db.notifications = some t) (hshape : InTargetShape t)
    (hsafe : ∀ r ∈ t.rows, r.jsSafe = true)
    (hnew : db.notifications_new = none) (hopen : env.openFails = false)
    (hcalm : ∀ k, env.fault k = false) :
    (fixNotificationsSchema env db).status = 0 ∧
      ∃ t', (fixNotificationsSchema env db).db.notifications = some t' ∧
        t'.rows = t.rows.map relabel ∧ List.Forall₂ Carried t.rows t'.rows ∧
        t'.rows.map (·.id) = t.rows.map (·.id) ∧
        (∀ r' ∈ t'.rows, r'.user_type = some "customer") ∧
        (t'.rows = t.rows ↔ ∀ r ∈ t.rows, r.user_type = some "customer") := by
  obtain ⟨_, hnd, hnn⟩ := hshape
  obtain ⟨s8, hbody⟩ := migrationBody_calm env hcalm (start db) t ht hnew
    (fun r hr => ⟨(hnn r hr).1, (hnn r hr).2.2.1, (hnn r hr).2.2.2⟩) hnd hsafe
  have hstatus : (fixNotificationsSchema env db).status = 0 := runScript_ok hopen hbody
  obtain ⟨legacy, t', h1, h2, h3, _⟩ := migration_result hstatus
  rw [ht] at h1
  cases h1
  have hsh : shadowRows db = [] := by simp [shadowRows, hnew]
  rw [hsh, List.nil_append, map_jsRow_of_safe t.rows hsafe] at h3
  refine ⟨hstatus, t', h2, h3, ?_, ?_, ?_, ?_⟩
  · rw [h3, List.forall₂_map_right_iff]
    exact List.forall₂_same.2 (fun r _ => carried_relabel r)
  · rw [h3, List.map_map]
    rfl
  · intro r' hr'
    rw [h3] at hr'
    obtain ⟨r, _, rfl⟩ := List.mem_map.1 hr'
    rfl
  · rw [h3, map_eq_self_iff]
    exact forall_congr' (fun r => imp_congr_right (fun _ => relabel_eq_self_iff r))

theorem remigration_relabels_every_row_witness :
    mixedDb.notifications = some mixedTable ∧ InTargetShape mixedTable ∧
      (∀ r ∈ mixedTable.rows, r.jsSafe = true) ∧
      mixedDb.notifications_new = none ∧ calmEnv.openFails = false ∧
      (∀ k, calmEnv.fault k = false) ∧
      (fixNotificationsSchema calmEnv mixedDb).status = 0 ∧
      (fixNotificationsSchema calmEnv mixedDb).db.notifications.map (·.rows)
        = some [relabel welcomeRow, relabel strayRow] :=
  ⟨rfl, by decide, by decide, rfl, rfl, fun _ => rfl,
    (remigration_relabels_every_row calmEnv mixedDb _ rfl (by decide) (by decide) rfl rfl
      (fun _ => rfl)).1,
    by decide⟩

/-! ## What the validation script leaves in the datastore -/

theorem keeps_issue_bind {α β : Type} {P : Db → Prop} {st : β → St} (env : Env)
    (sem : Db → Option (α × Db)) (s : St) (f : α × St → Except (Stop × St) β)
    (hs : P s.db)
    (hf : ∀ a db', sem s.db = some (a, db') →
      Keeps P st (f (a, { db := db', issued := s.issued + 1, log := s.log ++ [.statement true] }))) :
    Keeps P st (issue env sem s >>= f) := by
  unfold issue
  split
  · exact hs
  · split
    · exact hs
    · rename_i a db' hsem
      exact hf a db' hsem

theorem keeps_bind {α β : Type} {P : Db → Prop} {st : β → St} {x : Except (Stop × St) α}
    {f : α → Except (Stop × St) β} (hx : ∀ e, x = .error e → P e.2.db)
    (hf : ∀ a, x = .ok a → Keeps P st (f a)) : Keeps P st (x >>= f) := by
  cases x with
  | error e => exact hx e rfl
  | ok a => exact hf a rfl

theorem query_sem {β : Type} {sem : Db → Option β} {db db' : Db} {a : β}
    (h : (fun db => (sem db).map (fun row => (row, db))) db = some (a, db')) :
    sem db = some a ∧ db' = db := by
  simp only [Option.map_eq_some'] at h
  obtain ⟨x, hx, h⟩ := h
  cases h
  exact ⟨hx, rfl⟩

theorem insertNotification_frame {v : Values} {db db' : Db} {id : Int}
    (h : insertNotification v db = some (id, db')) :
    db'.login_users = db.login_users ∧ db'.users = db.users ∧
      db'.notifications_new = db.notifications_new := by
  unfold insertNotification at h
  split at h
  · cases h
  · split at h
    · cases h
    · cases h
      exact ⟨rfl, rfl, rfl⟩

theorem ensureCustomer_error {env : Env} {found : Option Customer} {s : St} {e : Stop × St}
    (h : ensureCustomer env found s = .error e) : e.2.db = s.db := by
  unfold ensureCustomer at h
  split at h
  · cases h
  · simp only [runQuery] at h
    split at h
    · rename_i e' he
      cases h
      obtain ⟨stop, s'⟩ := e
      obtain ⟨_, rfl⟩ := issue_error he
      rfl
    · cases h

theorem ensureCustomer_ok {env : Env} {found : Option Customer} {s s' : St} {c : Customer}
    (h : ensureCustomer env found s = .ok (c, s')) :
    (found = some c ∧ s' = s) ∨
      (found = none ∧ ∃ id, insertTestCustomer s.db = some (id, s'.db)) := by
  unfold ensureCustomer at h
  split at h
  · cases h
    exact Or.inl ⟨rfl, rfl⟩
  · simp only [runQuery] at h
    split at h
    · cases h
    · rename_i id s1 he
      cases h
      obtain ⟨_, db', hsem, rfl⟩ := issue_ok he
      exact Or.inr ⟨rfl, id, hsem⟩

/-- The last six statements of the script touch neither `login_users` nor `users`. -/
theorem testBody_tail_keeps {P : Db → Prop} (env : Env) (customer : Customer) (admin : Admin)
    (s3 : St) (hs : P s3.db)
    (hP : ∀ db db', db'.login_users = db.login_users → db'.users = db.users →
      db'.notifications_new = db.notifications_new → P db → P db') :
    Keeps P id (do
      let (_, s4) ← runQuery env (createCustomerNotification env customer admin) s3
      let (_, s5) ← runQuery env (createAdminNotification env admin) s4
      let (_, s6) ← getAll env (selectNotifications customer.id "customer") s5
      let (_, s7) ← getAll env (selectNotifications admin.id "admin") s6
      let (_, s8) ← get env (selectUnread customer.id "customer") s7
      let (_, s9) ← get env (selectUnread admin.id "admin") s8
      pure s9) := by
  simp only [runQuery, getAll, get]
  refine keeps_issue_bind env _ _ _ hs (fun a4 db4 h4 => ?_)
  obtain ⟨f1, f2, f3⟩ := insertNotification_frame h4
  have p4 : P db4 := hP _ _ f1 f2 f3 hs
  refine keeps_issue_bind env _ _ _ p4 (fun a5 db5 h5 => ?_)
  obtain ⟨g1, g2, g3⟩ := insertNotification_frame h5
  have p5 : P db5 := hP _ _ g1 g2 g3 p4
  refine keeps_issue_bind env _ _ _ p5 (fun a6 db6 h6 => ?_)
  obtain ⟨_, rfl⟩ := query_sem h6
  refine keeps_issue_bind env _ _ _ p5 (fun a7 db7 h7 => ?_)
  obtain ⟨_, rfl⟩ := query_sem h7
  refine keeps_issue_bind env _ _ _ p5 (fun a8 db8 h8 => ?_)
  obtain ⟨_, rfl⟩ := query_sem h8
  refine keeps_issue_bind env _ _ _ p5 (fun a9 db9 h9 => ?_)
  obtain ⟨_, rfl⟩ := query_sem h9
  exact p5

theorem runScript_keeps {P : Db → Prop} (env : Env) (body : St → Except (Stop × St) St)
    (db : Db) (h0 : P db) (hb : Keeps P id (body (start db))) :
    P (runScript env body db).db := by
  unfold runScript
  split
  · exact h0
  · split
    · rename_i s hbody; rw [hbody] at hb; exact hb
    · rename_i code s hbody; rw [hbody] at hb; exact hb
    · rename_i s hbody; rw [hbody] at hb; exact hb

theorem selectCustomer_none {db : Db} (h : selectCustomer db = some none) :
    ∃ us, db.login_users = some us ∧ ∀ u ∈ us, u.role ≠ some "customer" := by
  unfold selectCustomer at h
  cases hl : db.login_users with
  | none => simp [hl] at h
  | some us =>
    refine ⟨us, rfl, ?_⟩
    simp only [hl, Option.map_some', Option.some.injEq, Option.map_eq_none'] at h
    intro u hu
    have := List.find?_eq_none.1 h u hu
    simpa using this

theorem testBody_login (env : Env) (s0 : St) :
    Keeps (LoginOutcome s0.db) id (testBody env s0) := by
  have hP : ∀ db db', db'.login_users = db.login_users → db'.users = db.users →
      db'.notifications_new = db.notifications_new →
      LoginOutcome s0.db db → LoginOutcome s0.db db' := by
    intro db db' h _ _ hl
    unfold LoginOutcome at hl ⊢
    rw [h]
    exact hl
  unfold testBody
  simp only [get]
  refine keeps_issue_bind env _ _ _ (Or.inl rfl) (fun found db1 h1 => ?_)
  obtain ⟨hfound, rfl⟩ := query_sem h1
  simp only []
  refine keeps_bind (fun e he => ?_) (fun a2 h2 => ?_)
  · rw [ensureCustomer_error he]
    exact Or.inl rfl
  · obtain ⟨customer, s2⟩ := a2
    have p2 : LoginOutcome s0.db s2.db := by
      rcases ensureCustomer_ok h2 with ⟨_, rfl⟩ | ⟨rfl, id, hins⟩
      · exact Or.inl rfl
      · obtain ⟨us, hus, hno⟩ := selectCustomer_none hfound
        simp only at hins
        unfold insertTestCustomer at hins
        rw [hus] at hins
        simp only [Option.some.injEq, Prod.mk.injEq] at hins
        refine Or.inr ⟨us, id, hus, hno, ?_⟩
        rw [← hins.2, hins.1]
    simp only []
    refine keeps_issue_bind env _ _ _ p2 (fun adminRow db3 h3 => ?_)
    obtain ⟨_, rfl⟩ := query_sem h3
    simp only []
    cases adminRow with
    | none => exact p2
    | some admin => exact testBody_tail_keeps env customer admin _ p2 hP

theorem testNotifications_login (env : Env) (db : Db) :
    LoginOutcome db (testNotifications env db).db :=
  runScript_keeps env (testBody env) db (Or.inl rfl) (testBody_login env (start db))

theorem loginOutcome_of_fixture {db db' : Db} (hfix : hasCustomerFixture db = true)
    (h : LoginOutcome db db') : db'.login_users = db.login_users := by
  rcases h with h | ⟨us, id, hus, hno, _⟩
  · exact h
  · exfalso
    simp only [hasCustomerFixture, loginRows, hus, Option.getD_some, List.any_eq_true,
      Bool.and_eq_true, decide_eq_true_eq] at hfix
    obtain ⟨u, hu, hrole, _⟩ := hfix
    exact hno u hu hrole

theorem loginOutcome_counts {db db' : Db} (h : LoginOutcome db db') :
    (loginRows db').length ≤ (loginRows db).length + 1 ∧
      fixtureEmails db' ≤ fixtureEmails db + 1 ∧
      ((loginRows db').length = (loginRows db).length ∧ fixtureEmails db' = fixtureEmails db ∨
        hasCustomerFixture db' = true) := by
  rcases h with h | ⟨us, id, hus, _, h⟩
  · have h1 : loginRows db' = loginRows db := by simp only [loginRows, h]
    have h2 : fixtureEmails db' = fixtureEmails db := by simp only [fixtureEmails, h1]
    rw [h1, h2]
    exact ⟨Nat.le_succ _, Nat.le_succ _, Or.inl ⟨rfl, rfl⟩⟩
  · simp only [loginRows, fixtureEmails, hasCustomerFixture, h, hus, Option.getD_some,
      List.length_append, List.length_singleton, List.countP_append, le_refl, true_and]
    refine ⟨?_, Or.inr ?_⟩
    · simp [testCustomer]
    · simp [testCustomer]

/-- C8: when `login_users` already holds the customer fixture (role customer,
email customer@test.com), a run of the validation script inserts no row into
`login_users`; and two runs in sequence from any state leave at most one more
row in `login_users`, and at most one more row with the fixture email, than
the initial state had. -/
theorem fixture_provisioned_at_most_once (env env' : Env) (db : Db) :
    (hasCustomerFixture db = true →
      (testNotifications env db).db.login_users = db.login_users) ∧
    (loginRows (testNotifications env' (testNotifications env db).db).db).length
      ≤ (loginRows db).length + 1 ∧
    fixtureEmails (testNotifications env' (testNotifications env db).db).db
      ≤ fixtureEmails db + 1 := by
  have o1 := testNotifications_login env db
  have o2 := testNotifications_login env' (testNotifications env db).db
  refine ⟨fun hfix => loginOutcome_of_fixture hfix o1, ?_⟩
  obtain ⟨a1, a2, a3⟩ := loginOutcome_counts o1
  obtain ⟨b1, b2, _⟩ := loginOutcome_counts o2
  rcases a3 with ⟨e1, e2⟩ | hfix
  · rw [e1] at b1
    rw [e2] at b2
    exact ⟨b1, b2⟩
  · have same := loginOutcome_of_fixture hfix o2
    have h1 : loginRows (testNotifications env' (testNotifications env db).db).db
        = loginRows (testNotifications env db).db := by
      simp only [loginRows, same]
    have h2 : fixtureEmails (testNotifications env' (testNotifications env db).db).db
        = fixtureEmails (testNotifications env db).db := by
      simp only [fixtureEmails, h1]
    rw [h1, h2]
    exact ⟨a1, a2⟩

theorem fixture_provisioned_at_most_once_witness :
    hasCustomerFixture fixtureDb = true ∧
      (testNotifications calmEnv fixtureDb).db.login_users = fixtureDb.login_users ∧
      (loginRows (testNotifications calmEnv (testNotifications calmEnv freshDb).db).db).length
        ≤ (loginRows freshDb).length + 1 :=
  ⟨by decide,
    (fixture_provisioned_at_most_once calmEnv calmEnv fixtureDb).1 (by decide),
    (fixture_provisioned_at_most_once calmEnv calmEnv freshDb).2.1⟩

/-! ## The missing admin -/

theorem insertTestCustomer_frame {db db' : Db} {id : Int}
    (h : insertTestCustomer db = some (id, db')) :
    db'.users = db.users ∧ db'.notifications = db.notifications := by
  unfold insertTestCustomer at h
  split at h
  · cases h
  · cases h
    exact ⟨rfl, rfl⟩

theorem selectAdmin_none {db : Db} {row : Option Admin}
    (hno : ∀ us, db.users = some us → ∀ u ∈ us, u.role ≠ some "admin")
    (h : selectAdmin db = some row) : row = none := by
  unfold selectAdmin at h
  cases hu : db.users with
  | none => simp [hu] at h
  | some us =>
    simp only [hu, Option.map_some', Option.some.injEq] at h
    rw [← h, Option.map_eq_none', List.find?_eq_none]
    intro u hmem
    simpa using hno us hu u hmem

theorem testBody_no_admin (env : Env) (s0 : St)
    (hno : ∀ us, s0.db.users = some us → ∀ u ∈ us, u.role ≠ some "admin") :
    ∃ e, testBody env s0 = .error e ∧ e.2.db.users = s0.db.users ∧
      e.2.db.notifications = s0.db.notifications := by
  unfold testBody
  simp only [get]
  cases h1 : issue env (fun db => (selectCustomer db).map (fun row => (row, db))) s0 with
  | error e =>
    obtain ⟨stop, s⟩ := e
    obtain ⟨_, rfl⟩ := issue_error h1
    exact ⟨_, rfl, rfl, rfl⟩
  | ok a1 =>
    obtain ⟨found, s1⟩ := a1
    obtain ⟨_, db1, hsem1, rfl⟩ := issue_ok h1
    obtain ⟨_, rfl⟩ := query_sem hsem1
    rw [ok_bind _ rfl]
    simp only []
    cases h2 : ensureCustomer env found
        { db := s0.db, issued := s0.issued + 1, log := s0.log ++ [.statement true] } with
    | error e =>
      have := ensureCustomer_error h2
      exact ⟨e, rfl, by rw [this], by rw [this]⟩
    | ok a2 =>
      obtain ⟨customer, s2⟩ := a2
      have hframe : s2.db.users = s0.db.users ∧ s2.db.notifications = s0.db.notifications := by
        rcases ensureCustomer_ok h2 with ⟨_, rfl⟩ | ⟨_, id, hins⟩
        · exact ⟨rfl, rfl⟩
        · exact insertTestCustomer_frame hins
      rw [ok_bind _ rfl]
      simp only []
      cases h3 : issue env (fun db => (selectAdmin db).map (fun row => (row, db))) s2 with
      | error e =>
        obtain ⟨stop, s⟩ := e
        obtain ⟨_, rfl⟩ := issue_error h3
        exact ⟨_, rfl, hframe.1, hframe.2⟩
      | ok a3 =>
        obtain ⟨adminRow, s3⟩ := a3
        obtain ⟨_, db3, hsem3, rfl⟩ := issue_ok h3
        obtain ⟨hrow, rfl⟩ := query_sem hsem3
        have hnone : adminRow = none :=
          selectAdmin_none (fun us hus => hno us (hframe.1 ▸ hus)) hrow
        subst hnone
        rw [ok_bind _ rfl]
        exact ⟨_, rfl, hframe.1, hframe.2⟩

/-- C9: when the `users` table has no row with role admin, the validation
script ends with status 1, and neither `users` nor `notifications` is changed:
no row is inserted into either. -/
theorem missing_admin_is_fatal (env : Env) (db : Db)
    (hno : ∀ us, db.users = some us → ∀ u ∈ us, u.role ≠ some "admin") :
    (testNotifications env db).status = 1 ∧
      (testNotifications env db).db.users = db.users ∧
      (testNotifications env db).db.notifications = db.notifications := by
  obtain ⟨e, he, hu, hn⟩ := testBody_no_admin env (start db) hno
  refine ⟨?_, ?_⟩
  · rcases (testNotifications_facts env db).1 with h0 | h1
    · obtain ⟨_, _, s, hs, _⟩ := (testNotifications_facts env db).2.2.1 h0
      rw [he] at hs
      cases hs
    · exact h1
  · refine runScript_keeps (P := fun d => d.users = db.users ∧ d.notifications = db.notifications)
      env (testBody env) db ⟨rfl, rfl⟩ ?_
    rw [he]
    exact ⟨hu, hn⟩

theorem missing_admin_is_fatal_witness :
    (∀ us, noAdminDb.users = some us → ∀ u ∈ us, u.role ≠ some "admin") ∧
      (testNotifications calmEnv noAdminDb).status = 1 ∧
      (testNotifications calmEnv noAdminDb).db.users = noAdminDb.users ∧
      (testNotifications calmEnv noAdminDb).db.notifications = noAdminDb.notifications :=
  have hno : ∀ us, noAdminDb.users = some us → ∀ u ∈ us, u.role ≠ some "admin" := by
    intro us hus u hu
    simp only [noAdminDb, Option.some.injEq] at hus
    subst hus
    simp only [List.mem_singleton] at hu
    subst hu
    decide
  ⟨hno, missing_admin_is_fatal calmEnv noAdminDb hno⟩

/-! ## Reads and writes on the new shape -/

/-- C3: on a notifications table with the `user_type` column, the listing
query for a recipient (id, role) returns exactly the selected columns of the
rows whose `user_id` is id and whose `user_type` is role, so every returned row
carries that role and no row addressed to another role is among them, even
when the numeric id is the same. -/
theorem listing_matches_recipient_exactly (db : Db) (t : NotifTable) (uid : Int)
    (role : String) (ht : db.notifications = some t) (hshape : t.hasUserType = true) :
    ∃ res, selectNotifications uid role db = some res ∧
      res = (t.rows.filter (fun r =>
        decide (r.user_id = some uid ∧ r.user_type = some role))).map NotificationRow.listed ∧
      (∀ p, p ∈ res ↔
        ∃ r ∈ t.rows, r.user_id = some uid ∧ r.user_type = some role ∧ r.listed = p) ∧
      (∀ p ∈ res, p.user_type = some role) ∧
      (∀ r ∈ t.rows, r.user_type ≠ some role → r.listed ∉ res) := by
  have hres : selectNotifications uid role db = some ((t.rows.filter (fun r =>
      decide (r.user_id = some uid ∧ r.user_type = some role))).map NotificationRow.listed) := by
    simp only [selectNotifications, ht, Option.some_bind, listByRecipient, hshape, if_true,
      Bool.decide_and]
  have hmem : ∀ p, p ∈ (t.rows.filter (fun r =>
      decide (r.user_id = some uid ∧ r.user_type = some role))).map NotificationRow.listed ↔
      ∃ r ∈ t.rows, r.user_id = some uid ∧ r.user_type = some role ∧ r.listed = p := by
    intro p
    simp only [List.mem_map, List.mem_filter, decide_eq_true_eq]
    constructor
    · rintro ⟨r, ⟨hr, h1, h2⟩, rfl⟩
      exact ⟨r, hr, h1, h2, rfl⟩
    · rintro ⟨r, hr, h1, h2, rfl⟩
      exact ⟨r, ⟨hr, h1, h2⟩, rfl⟩
  have hrole : ∀ p ∈ (t.rows.filter (fun r =>
      decide (r.user_id = some uid ∧ r.user_type = some role))).map NotificationRow.listed,
      p.user_type = some role := by
    intro p hp
    obtain ⟨r, _, _, h2, rfl⟩ := (hmem p).1 hp
    exact h2
  refine ⟨_, hres, rfl, hmem, hrole, ?_⟩
  intro r _ hne hin
  exact hne (hrole _ hin)

theorem listing_matches_recipient_exactly_witness :
    mixedDb.notifications = some mixedTable ∧ mixedTable.hasUserType = true ∧
      ∃ res, selectNotifications 7 "customer" mixedDb = some res ∧
        res = (mixedTable.rows.filter (fun r =>
          decide (r.user_id = some 7 ∧ r.user_type = some "customer"))).map
            NotificationRow.listed ∧
        (∀ p, p ∈ res ↔ ∃ r ∈ mixedTable.rows,
          r.user_id = some 7 ∧ r.user_type = some "customer" ∧ r.listed = p) ∧
        (∀ p ∈ res, p.user_type = some "customer") ∧
        (∀ r ∈ mixedTable.rows, r.user_type ≠ some "customer" → r.listed ∉ res) :=
  ⟨rfl, rfl, listing_matches_recipient_exactly mixedDb mixedTable 7 "customer" rfl rfl⟩

theorem insert_createValues (t : NotifTable) (hshape : t.hasUserType = true) (env : Env)
    (u : Int) (role : String) (rest : Option Int) (title message type : String) :
    t.insert (createValues env u role rest title message type)
      = some (t.nextId, { t with
          rows := t.rows ++ [(createValues env u role rest title message type).row t.nextId],
          seq := t.nextId }) := by
  simp [NotifTable.insert, createValues, Values.notNullOk, hshape]

theorem unread_after_create (db : Db) (t : NotifTable) (ht : db.notifications = some t)
    (hshape : t.hasUserType = true) (env : Env) (u : Int) (role : String) (rest : Option Int)
    (title message type : String) :
    ∃ id db', insertNotification (createValues env u role rest title message type) db
        = some (id, db') ∧
      ∀ (u' : Int) (r' : String), ∃ n, selectUnread u' r' db = some (some n) ∧
        selectUnread u' r' db' = some (some (n + if u' = u ∧ r' = role then 1 else 0)) := by
  have hins : insertNotification (createValues env u role rest title message type) db
      = some (t.nextId, { db with
          notifications := some { t with
            rows := t.rows ++ [(createValues env u role rest title message type).row t.nextId],
            seq := t.nextId } }) := by
    simp only [insertNotification, ht, insert_createValues t hshape]
  refine ⟨_, _, hins, ?_⟩
  · intro u' r'
    refine ⟨(t.rows.filter (fun r => decide (r.user_id = some u') &&
        decide (r.user_type = some r') && decide (r.is_read = some 0))).length, ?_, ?_⟩
    · simp only [selectUnread, ht, Option.some_bind, countUnread, hshape, if_true,
        Option.map_some']
    · simp only [selectUnread, Option.some_bind, countUnread, hshape, if_true,
        Option.map_some', List.filter_append, List.length_append, Option.some.injEq,
        Nat.add_left_cancel_iff]
      by_cases h : u' = u ∧ r' = role
      · obtain ⟨rfl, rfl⟩ := h
        simp [createValues, Values.row]
      · simp only [h, if_false]
        have : (decide (((createValues env u role rest title message type).row t.nextId).user_id
              = some u') &&
            decide (((createValues env u role rest title message type).row t.nextId).user_type
              = some r')) = false := by
          simp only [createValues, Values.row, Option.some.injEq, Bool.and_eq_false_imp,
            decide_eq_true_eq, decide_eq_false_iff_not]
          intro h1 h2
          exact h ⟨h1.symm, h2.symm⟩
        simp [List.filter, this]

/-- C4: on a notifications table with the `user_type` column, each of the two
creating statements of the script inserts its row, and afterwards the unread
count of every recipient (u, r) is its count before plus 1 when (u, r) is the
recipient of the new notification and plus 0 otherwise. On an empty table,
creating the admin notification for id 5 gives unread count 1 for (5, admin)
and 0 for (5, customer). -/
theorem create_adds_one_unread_for_recipient_only (env : Env) (db : Db) (t : NotifTable)
    (customer : Customer) (admin : Admin) (ht : db.notifications = some t)
    (hshape : t.hasUserType = true) :
    (∃ id db', createCustomerNotification env customer admin db = some (id, db') ∧
      ∀ (u : Int) (r : String), ∃ n, selectUnread u r db = some (some n) ∧
        selectUnread u r db'
          = some (some (n + if u = customer.id ∧ r = "customer" then 1 else 0))) ∧
    (∃ id db', createAdminNotification env admin db = some (id, db') ∧
      ∀ (u : Int) (r : String), ∃ n, selectUnread u r db = some (some n) ∧
        selectUnread u r db'
          = some (some (n + if u = admin.id ∧ r = "admin" then 1 else 0))) ∧
    (∃ id db', createAdminNotification env { id := 5, email := none, restaurant_id := none }
        freshDb = some (id, db') ∧
      selectUnread 5 "admin" db' = some (some 1) ∧
      selectUnread 5 "customer" db' = some (some 0)) := by
  refine ⟨unread_after_create db t ht hshape env customer.id "customer" admin.restaurant_id _ _ _,
    unread_after_create db t ht hshape env admin.id "admin" admin.restaurant_id _ _ _, ?_⟩
  obtain ⟨id, db', hins, hcount⟩ := unread_after_create freshDb
    { hasUserType := true, rows := [], seq := 0 } rfl rfl env 5 "admin" none
    "Admin Alert" "This is a test notification for an admin" "success"
  refine ⟨id, db', hins, ?_, ?_⟩
  · obtain ⟨n, h0, h1⟩ := hcount 5 "admin"
    have : selectUnread 5 "admin" freshDb = some (some 0) := by decide
    rw [this] at h0
    cases h0
    rw [h1]
    rfl
  · obtain ⟨n, h0, h1⟩ := hcount 5 "customer"
    have : selectUnread 5 "customer" freshDb = some (some 0) := by decide
    rw [this] at h0
    cases h0
    rw [h1]
    rfl

theorem create_adds_one_unread_for_recipient_only_witness :
    freshDb.notifications = some { hasUserType := true, rows := [], seq := 0 } ∧
      ∃ id db', createAdminNotification calmEnv { id := 5, email := none, restaurant_id := none }
          freshDb = some (id, db') ∧
        selectUnread 5 "admin" db' = some (some 1) ∧
        selectUnread 5 "customer" db' = some (some 0) :=
  ⟨rfl, (create_adds_one_unread_for_recipient_only calmEnv freshDb
    { hasUserType := true, rows := [], seq := 0 } { id := 1, email := none }
    { id := 5, email := none, restaurant_id := none } rfl rfl).2.2⟩

/-- C5, as stated, fails: the table that `fixNotificationsSchema` creates accepts
an insert whose `user_type` is the text manager, which is none of customer,
admin and super_admin, and stores the row. -/
theorem unlisted_user_type_is_accepted :
    (insertNotification (createValues calmEnv 5 "manager" none "Hello" "Hi" "info")
        (fixNotificationsSchema calmEnv (legacyDb [])).db).map
      (fun p => p.2.notifications.map (fun t => t.rows.map (·.user_type)))
      = some (some [some "manager"]) := by
  decide

/-- C5, amended: the only constraint the table shape created by
`fixNotificationsSchema` puts on `user_type` is NOT NULL. An insert whose
`user_type` is NULL is rejected and leaves the datastore unchanged; an insert
with any text as `user_type` is accepted and stored when the table has the new
shape, the other NOT NULL columns are given, the id is left to the table and
the environment does not fail. -/
theorem user_type_is_only_not_null (env : Env) (s : St) (v : Values) :
    (v.user_type = none →
      ∃ s', runQuery env (insertNotification v) s = .error (.rejected, s') ∧ s'.db = s.db) ∧
    (∀ (t : NotifTable) (role : String), s.db.notifications = some t →
      t.hasUserType = true → env.fault s.issued = false → v.id = none →
      v.user_id.isSome = true → v.title.isSome = true → v.message.isSome = true →
      ∃ id s', runQuery env (insertNotification { v with user_type := some role }) s
          = .ok (id, s') ∧
        ∃ t', s'.db.notifications = some t' ∧
          t'.rows = t.rows ++ [({ v with user_type := some role } : Values).row id]) := by
  constructor
  · intro hnull
    have hsem : insertNotification v s.db = none := by
      unfold insertNotification
      cases s.db.notifications with
      | none => rfl
      | some t =>
        simp [NotifTable.insert, Values.notNullOk, hnull]
    refine ⟨{ s with issued := s.issued + 1, log := s.log ++ [.statement false] }, ?_, rfl⟩
    simp only [runQuery, issue, hsem]
    split <;> rfl
  · intro t role ht hshape hf hid hu hti hm
    have hins : t.insert { v with user_type := some role }
        = some (t.nextId, { t with
            rows := t.rows ++ [({ v with user_type := some role } : Values).row t.nextId],
            seq := t.nextId }) := by
      simp [NotifTable.insert, Values.notNullOk, hshape, hid, hu, hti, hm]
    have hsem : insertNotification { v with user_type := some role } s.db
        = some (t.nextId, { s.db with
            notifications := some { t with
              rows := t.rows ++ [({ v with user_type := some role } : Values).row t.nextId],
              seq := t.nextId } }) := by
      simp only [insertNotification, ht, hins]
    exact ⟨t.nextId, _, issue_calm hf hsem, _, rfl, rfl⟩

theorem user_type_is_only_not_null_witness :
    (∃ s', runQuery calmEnv
        (insertNotification { createValues calmEnv 5 "admin" none "Hello" "Hi" "info" with
          user_type := none }) (start freshDb)
        = .error (.rejected, s') ∧ s'.db = (start freshDb).db) ∧
    (∃ id s', runQuery calmEnv
        (insertNotification { createValues calmEnv 5 "admin" none "Hello" "Hi" "info" with
          user_type := some "manager" }) (start freshDb)
        = .ok (id, s') ∧
      ∃ t', s'.db.notifications = some t' ∧
        t'.rows = [] ++ [({ createValues calmEnv 5 "admin" none "Hello" "Hi" "info" with
          user_type := some "manager" } : Values).row id]) :=
  ⟨(user_type_is_only_not_null calmEnv (start freshDb)
      { createValues calmEnv 5 "admin" none "Hello" "Hi" "info" with user_type := none }).1 rfl,
    (user_type_is_only_not_null calmEnv (start freshDb)
      (createValues calmEnv 5 "admin" none "Hello" "Hi" "info")).2
      { hasUserType := true, rows := [], seq := 0 } "manager" rfl rfl rfl rfl rfl rfl rfl⟩

/-! ## Exit status -/

theorem runScript_status_zero_iff (env : Env) (body : St → Except (Stop × St) St) (db : Db)
    (hb : Holds id (body (start db))) :
    (runScript env body db).status = 0 ↔
      env.openFails = false ∧ ∃ s, body (start db) = .ok s := by
  constructor
  · intro h
    obtain ⟨h1, _, s, hs, _⟩ := (runScript_facts env body db hb).2.2.1 h
    exact ⟨h1, s, hs⟩
  · rintro ⟨h1, s, hs⟩
    exact runScript_ok h1 hs

theorem runScript_open_fails (env : Env) (body : St → Except (Stop × St) St) (db : Db)
    (h : env.openFails = true) :
    (runScript env body db).status = 1 ∧ (runScript env body db).db = db := by
  simp [runScript, h]

theorem runScript_withClose (env : Env) (fails : Bool) (body body' : St → Except (Stop × St) St)
    (db : Db) (hbody : body' = body) :
    (runScript (withClose env fails) body' db).status = (runScript env body db).status ∧
      (runScript (withClose env fails) body' db).db = (runScript env body db).db := by
  subst hbody
  simp only [runScript, withClose]
  cases env.openFails with
  | true => exact ⟨rfl, rfl⟩
  | false =>
    cases body' (start db) with
    | ok s => exact ⟨rfl, rfl⟩
    | error e =>
      obtain ⟨stop, s⟩ := e
      cases stop <;> exact ⟨rfl, rfl⟩

theorem issue_withClose {α : Type} (env : Env) (fails : Bool) (sem : Db → Option (α × Db))
    (s : St) : issue (withClose env fails) sem s = issue env sem s := rfl

theorem copyLoop_withClose (env : Env) (fails : Bool) :
    ∀ (rows : List NotificationRow) (s : St),
      copyLoop (withClose env fails) rows s = copyLoop env rows s := by
  intro rows
  induction rows with
  | nil => intro s; rfl
  | cons r rest ih =>
    intro s
    simp only [copyLoop, runQuery, issue_withClose]
    split
    · rfl
    · exact ih _

theorem migrationBody_withClose (env : Env) (fails : Bool) :
    migrationBody (withClose env fails) = migrationBody env := by
  funext s0
  unfold migrationBody
  simp only [runQuery, getAll, issue_withClose, copyLoop_withClose]

theorem testBody_withClose (env : Env) (fails : Bool) :
    testBody (withClose env fails) = testBody env := by
  funext s0
  rfl

theorem ensureCustomer_ok_issued {env : Env} {found : Option Customer} {s s' : St}
    {c : Customer} (h : ensureCustomer env found s = .ok (c, s')) :
    s'.db.users = s.db.users ∧
      ((s'.issued = s.issued) ∨ (s'.issued = s.issued + 1 ∧ env.fault s.issued = false)) := by
  unfold ensureCustomer at h
  split at h
  · cases h
    exact ⟨rfl, Or.inl rfl⟩
  · simp only [runQuery] at h
    split at h
    · cases h
    · rename_i id s1 he
      cases h
      obtain ⟨hf, db', hsem, rfl⟩ := issue_ok he
      exact ⟨(insertTestCustomer_frame hsem).1, Or.inr ⟨rfl, hf⟩⟩

theorem selectAdmin_some {db : Db} {admin : Admin} (h : selectAdmin db = some (some admin)) :
    ∃ us u, db.users = some us ∧ u ∈ us ∧ u.role = some "admin" := by
  unfold selectAdmin at h
  cases hu : db.users with
  | none => simp [hu] at h
  | some us =>
    simp only [hu, Option.map_some', Option.some.injEq, Option.map_eq_some'] at h
    obtain ⟨u, hfind, _⟩ := h
    refine ⟨us, u, rfl, List.mem_of_find?_eq_some hfind, ?_⟩
    simpa using List.find?_some hfind

/-- When the `try` block of the validation script runs to its end, the
environment rejected none of the first eight statements and `users` holds an
admin row. -/
theorem testBody_ok {env : Env} {s0 s : St} (h : testBody env s0 = .ok s) :
    (∀ k, s0.issued ≤ k → k < s0.issued + 8 → env.fault k = false) ∧
      ∃ us u, s0.db.users = some us ∧ u ∈ us ∧ u.role = some "admin" := by
  unfold testBody at h
  obtain ⟨⟨found, s1⟩, h1, h⟩ := bind_ok h
  obtain ⟨⟨customer, s2⟩, h2, h⟩ := bind_ok h
  obtain ⟨⟨adminRow, s3⟩, h3, h⟩ := bind_ok h
  cases adminRow with
  | none => cases h
  | some admin =>
    simp only [] at h
    obtain ⟨⟨_, s4⟩, h4, h⟩ := bind_ok h
    obtain ⟨⟨_, s5⟩, h5, h⟩ := bind_ok h
    obtain ⟨⟨_, s6⟩, h6, h⟩ := bind_ok h
    obtain ⟨⟨_, s7⟩, h7, h⟩ := bind_ok h
    obtain ⟨⟨_, s8⟩, h8, h⟩ := bind_ok h
    obtain ⟨⟨_, s9⟩, h9, h⟩ := bind_ok h
    obtain ⟨f1, db1, e1, rfl⟩ := issue_ok h1
    obtain ⟨hframe, hissued⟩ := ensureCustomer_ok_issued h2
    obtain ⟨f3, db3, e3, rfl⟩ := issue_ok h3
    obtain ⟨f4, db4, e4, rfl⟩ := issue_ok h4
    obtain ⟨f5, db5, e5, rfl⟩ := issue_ok h5
    obtain ⟨f6, db6, e6, rfl⟩ := issue_ok h6
    obtain ⟨f7, db7, e7, rfl⟩ := issue_ok h7
    obtain ⟨f8, db8, e8, rfl⟩ := issue_ok h8
    obtain ⟨f9, db9, e9, rfl⟩ := issue_ok h9
    obtain ⟨_, rfl⟩ := query_sem e1
    obtain ⟨hadmin, rfl⟩ := query_sem e3
    simp only at hframe hissued f1 f3 f4 f5 f6 f7 f8 f9
    constructor
    · intro k hk1 hk2
      rcases hissued with hi | ⟨hi, f2⟩
      · rw [hi] at f3 f4 f5 f6 f7 f8 f9
        have hcase : k = s0.issued ∨ k = s0.issued + 1 ∨ k = s0.issued + 1 + 1 ∨
            k = s0.issued + 1 + 1 + 1 ∨ k = s0.issued + 1 + 1 + 1 + 1 ∨
            k = s0.issued + 1 + 1 + 1 + 1 + 1 ∨ k = s0.issued + 1 + 1 + 1 + 1 + 1 + 1 ∨
            k = s0.issued + 1 + 1 + 1 + 1 + 1 + 1 + 1 := by omega
        rcases hcase with rfl | rfl | rfl | rfl | rfl | rfl | rfl | rfl
        · exact f1
        · exact f3
        · exact f4
        · exact f5
        · exact f6
        · exact f7
        · exact f8
        · exact f9
      · rw [hi] at f3 f4 f5 f6 f7 f8
        have hcase : k = s0.issued ∨ k = s0.issued + 1 ∨ k = s0.issued + 1 + 1 ∨
            k = s0.issued + 1 + 1 + 1 ∨ k = s0.issued + 1 + 1 + 1 + 1 ∨
            k = s0.issued + 1 + 1 + 1 + 1 + 1 ∨ k = s0.issued + 1 + 1 + 1 + 1 + 1 + 1 ∨
            k = s0.issued + 1 + 1 + 1 + 1 + 1 + 1 + 1 := by omega
        rcases hcase with rfl | rfl | rfl | rfl | rfl | rfl | rfl | rfl
        · exact f1
        · exact f2
        · exact f3
        · exact f4
        · exact f5
        · exact f6
        · exact f7
        · exact f8
    · obtain ⟨us, u, hus, hu, hrole⟩ := selectAdmin_some hadmin
      exact ⟨us, u, by rw [← hframe]; exact hus, hu, hrole⟩

/-- C6, as stated, fails: when every statement succeeds and only closing the
connection fails, the migration and the validation script still exit with
status 0 although a datastore call failed. -/
theorem exit_status_ignores_close_failure :
    (closeFailEnv.closeFails = true ∧
      (fixNotificationsSchema closeFailEnv (legacyDb [welcomeRow])).status = 0 ∧
      ∃ e ∈ (fixNotificationsSchema closeFailEnv (legacyDb [welcomeRow])).log,
        e.failure = true) ∧
    ((testNotifications closeFailEnv freshDb).status = 0 ∧
      ∃ e ∈ (testNotifications closeFailEnv freshDb).log, e.failure = true) := by
  decide

/-- C6, amended: for both scripts, every environment and every datastore, the
exit status is 0 or 1. It is 0 exactly when the file could be opened and the
`try` block ran to its end, which is exactly when the log of the run shows no
failed open, no rejected statement and no missing fixture. A failed open gives
status 1; so does the rejection by the environment of any statement the script
issues (all 7 plus one per old row for the migration, the first 8 for the
validation script), and so does a `users` table without an admin row. Whether
closing the connection fails changes neither the status nor the datastore. -/
theorem exit_status_iff_no_fatal_event (env : Env) (db : Db) :
    (((fixNotificationsSchema env db).status = 0 ∨ (fixNotificationsSchema env db).status = 1) ∧
      ((fixNotificationsSchema env db).status = 0 ↔
        env.openFails = false ∧ ∃ s, migrationBody env (start db) = .ok s) ∧
      ((fixNotificationsSchema env db).status = 0 ↔
        ∀ e ∈ (fixNotificationsSchema env db).log, e.fatal = false) ∧
      (env.openFails = true → (fixNotificationsSchema env db).status = 1) ∧
      (∀ k, env.fault k = true →
        (∀ legacy, db.notifications = some legacy → k < legacy.rows.length + 7) →
        (fixNotificationsSchema env db).status = 1) ∧
      (∀ fails, (fixNotificationsSchema (withClose env fails) db).status
          = (fixNotificationsSchema env db).status ∧
        (fixNotificationsSchema (withClose env fails) db).db
          = (fixNotificationsSchema env db).db)) ∧
    (((testNotifications env db).status = 0 ∨ (testNotifications env db).status = 1) ∧
      ((testNotifications env db).status = 0 ↔
        env.openFails = false ∧ ∃ s, testBody env (start db) = .ok s) ∧
      ((testNotifications env db).status = 0 ↔
        ∀ e ∈ (testNotifications env db).log, e.fatal = false) ∧
      (env.openFails = true → (testNotifications env db).status = 1) ∧
      (∀ k, env.fault k = true → k < 8 → (testNotifications env db).status = 1) ∧
      ((∀ us, db.users = some us → ∀ u ∈ us, u.role ≠ some "admin") →
        (testNotifications env db).status = 1) ∧
      (∀ fails, (testNotifications (withClose env fails) db).status
          = (testNotifications env db).status ∧
        (testNotifications (withClose env fails) db).db
          = (testNotifications env db).db)) := by
  have hm := migrationBody_holds env _ (start_okLog db)
  have ht := testBody_holds env _ (start_okLog db)
  have m01 := (fixNotificationsSchema_facts env db).1
  have t01 := (testNotifications_facts env db).1
  have mz := runScript_status_zero_iff env (migrationBody env) db hm
  have tz := runScript_status_zero_iff env (testBody env) db ht
  refine ⟨⟨m01, mz, (fixNotificationsSchema_facts env db).2.1,
      fun h => (runScript_open_fails env _ db h).1, ?_, ?_⟩,
    ⟨t01, tz, (testNotifications_facts env db).2.1,
      fun h => (runScript_open_fails env _ db h).1, ?_, ?_, ?_⟩⟩
  · intro k hk hlt
    rcases m01 with h0 | h1
    · obtain ⟨legacy, _, hl, _, _, _, _, _, hfault⟩ := migration_result h0
      have := hfault k (hlt legacy hl)
      rw [hk] at this
      cases this
    · exact h1
  · intro fails
    exact runScript_withClose env fails (migrationBody env) _ db
      (migrationBody_withClose env fails)
  · intro k hk hlt
    rcases t01 with h0 | h1
    · obtain ⟨_, s, hs⟩ := tz.1 h0
      have := (testBody_ok hs).1 k (Nat.zero_le k) (by simpa [start] using hlt)
      rw [hk] at this
      cases this
    · exact h1
  · intro hno
    rcases t01 with h0 | h1
    · obtain ⟨_, s, hs⟩ := tz.1 h0
      obtain ⟨us, u, hus, hu, hrole⟩ := (testBody_ok hs).2
      exact absurd hrole (hno us hus u hu)
    · exact h1
  · intro fails
    exact runScript_withClose env fails (testBody env) _ db (testBody_withClose env fails)

theorem exit_status_iff_no_fatal_event_witness :
    openFailEnv.openFails = true ∧
      (fixNotificationsSchema openFailEnv (legacyDb [welcomeRow])).status = 1 ∧
      (testNotifications openFailEnv freshDb).status = 1 ∧
      (fixNotificationsSchema (withClose calmEnv true) (legacyDb [welcomeRow])).status
        = (fixNotificationsSchema calmEnv (legacyDb [welcomeRow])).status :=
  ⟨rfl,
    (exit_status_iff_no_fatal_event openFailEnv (legacyDb [welcomeRow])).1.2.2.2.1 rfl,
    (exit_status_iff_no_fatal_event openFailEnv freshDb).2.2.2.2.1 rfl,
    ((exit_status_iff_no_fatal_event calmEnv (legacyDb [welcomeRow])).1.2.2.2.2.2 true).1⟩

end Notifications
